import Mathlib

/-!
# A verification development for the `isf-converter-py` ISF codec

This file gives a shallow embedding, in Lean 4, of the core of
`src/isfconverter/isfreader.py`: the header scanner (`get_head` and the
regular expression it iterates), the format-descriptor maps
(`fmt_isf_to_numpy`, `fmt_numpy_to_isf`, `get_numpy_fmt`, `get_isf_fmt`),
payload framing and reading (`read_data_from_file`), the three payload
layouts of `read_isf` (`Y`, `ENV`, `XY`) with their calibration arithmetic
(`convert_data_y`, `convert_data_x`), and the XY encoder
(`write_isf_xy`, `head_to_str`).

Modelling conventions:
* A file is a `List Nat` of byte values; the latin-1 decode used by the
  Python source maps byte `b` to code point `b`, so characters are also
  modelled as `Nat` byte values.
* Python values held in the header dictionary are `PyVal`
  (`int`, `float` or `str`), with `float` modelled as an exact rational;
  floating-point rounding is idealised (all claims about numeric values
  are stated up to the "within element-width precision" tolerance of the
  specification, and the theorems below only rely on values that are
  exactly representable).  Python `nan`/`inf` floats are not representable
  in `ℚ`; `pyParseFloat` returns `none` for them, which is the only
  divergence from `float(...)`, and no theorem below touches such input.
* Exceptions are modelled with `Except PyErr`; `KeyError`, `EOFError`
  (the truncated-payload error, with its expected/actual byte counts),
  `AssertionError`, numpy's `TypeError`/`ValueError`, and NEP-50
  `OverflowError` each get a constructor.
* numpy dtypes are the triple `Dtype` (byte order, kind, width); numpy
  prints the byte order of a 1-byte dtype as the irrelevant marker
  (code 124, the vertical bar), which `dtypeStr` reproduces.
* numpy scalar/array binary operations follow the NEP-50 promotion rules
  of current numpy (a Python int scalar keeps the array dtype, erroring
  when it does not fit; a Python float scalar with an integer array gives
  float64); integer-dtype results wrap in two's complement.
  `np.linspace` receiving a non-integral `num` (the `ENV` branch passes
  `NR_PT / 2`, a Python float) is modelled with the truncating `int(num)`
  coercion that the numpy releases contemporary with this code applied.
-/

set_option maxRecDepth 100000
set_option synthInstance.maxSize 2048

namespace Isf

/-- The bytes of an ASCII string literal (latin-1 decode is the identity
on byte values, so this is both the byte list and the character list). -/
def strB (s : String) : List Nat := s.toList.map Char.toNat

/-- Python `\w` (a word character) restricted to the 256 latin-1 code
points: ASCII alphanumerics and the underscore, plus the latin-1 code
points that are Unicode alphanumeric (feminine/masculine ordinals,
superscripts, micro sign, vulgar fractions and the accented letters). -/
def isWordB (c : Nat) : Bool :=
  (48 ≤ c && c ≤ 57) || (65 ≤ c && c ≤ 90) || c == 95 || (97 ≤ c && c ≤ 122) ||
  c == 0xAA || c == 0xB2 || c == 0xB3 || c == 0xB5 || c == 0xB9 || c == 0xBA ||
  c == 0xBC || c == 0xBD || c == 0xBE ||
  (0xC0 ≤ c && c ≤ 0xD6) || (0xD8 ≤ c && c ≤ 0xF6) || (0xF8 ≤ c && c ≤ 0xFF)

/-- Python `\s` (a whitespace character) restricted to latin-1: tab
through carriage return, the file/group/record/unit separators, the
space, next-line (0x85) and the no-break space (0xA0). -/
def isSpaceB (c : Nat) : Bool :=
  (9 ≤ c && c ≤ 13) || (28 ≤ c && c ≤ 31) || c == 32 || c == 0x85 || c == 0xA0

/-- The `[:;]` character class that starts every header token. -/
def isDelimB (c : Nat) : Bool := c == 58 || c == 59

/-- A character the `[^;"]+` value class accepts. -/
def isValueB (c : Nat) : Bool := !(c == 59 || c == 34)

/-- One candidate match of the header pattern
`(?:[:;])([\w]+)(?:\s)(?:")?([^;"]+)` anchored at the start of the list:
the captured name and value, the offset of the value group from the
match start, and the total length of the match. -/
structure PreMatch where
  name : List Nat
  value : List Nat
  voff : Nat
  len : Nat
  deriving DecidableEq

/-- Try the header pattern at the start of the list, greedily, exactly as
the regular expression engine does: one delimiter, a maximal non-empty
run of word characters, one whitespace character, an optional double
quote, then a maximal non-empty run of characters other than the
semicolon and the double quote. -/
def matchAt : List Nat → Option PreMatch
  | [] => none
  | c :: rest =>
    if isDelimB c then
      let name := rest.takeWhile isWordB
      if name.isEmpty then none
      else
        let rest2 := rest.drop name.length
        if isSpaceB (rest2.headD 0) then
          let rest3 := rest2.tail
          let q : Nat := if rest3.headD 0 = 34 then 1 else 0
          let rest4 := if rest3.headD 0 = 34 then rest3.tail else rest3
          let value := rest4.takeWhile isValueB
          if value.isEmpty then none
          else some { name := name, value := value,
                      voff := 1 + name.length + 1 + q,
                      len := 1 + name.length + 1 + q + value.length }
        else none
    else none

/-- A match reported by the scan: name, value and the absolute position
of the value group (Python's `param.start(2)`). -/
structure HMatch where
  name : List Nat
  value : List Nat
  vstart : Nat
  deriving DecidableEq

/-- `re.finditer` of the header pattern: leftmost non-overlapping
matches.  `pos` is the absolute position of the list head; `skip`
counts positions still covered by the previous match (the iterator
resumes at a match end). -/
def scan : List Nat → Nat → Nat → List HMatch
  | [], _, _ => []
  | _ :: t, pos, Nat.succ k => scan t (pos + 1) k
  | c :: t, pos, 0 =>
    match matchAt (c :: t) with
    | some m =>
      { name := m.name, value := m.value, vstart := pos + m.voff } ::
        scan t (pos + 1) (m.len - 1)
    | none => scan t (pos + 1) 0

/-- A Python value as stored in the header dictionary. -/
inductive PyVal where
  | int (z : Int)
  | float (q : ℚ)
  | str (s : List Nat)
  deriving DecidableEq

/-- A raised Python exception, by kind.  `keyError` carries the missing
key (this is how the source reports a missing header field), `eofError`
carries the expected and the actually-read byte counts (the
truncated-payload failure of `read_data_from_file`). -/
inductive PyErr where
  | keyError (k : PyVal)
  | eofError (expected : Int) (actual : Nat)
  | assertionError
  | typeError
  | valueError
  | overflowError
  | zeroDivisionError
  | indexError
  deriving DecidableEq

/-- The value of a decimal digit character, if it is one. -/
def decDigit? (c : Nat) : Option Nat :=
  if 48 ≤ c ∧ c ≤ 57 then some (c - 48) else none

/-- The numeric value of a non-empty all-digit character run. -/
def digitsVal? (s : List Nat) : Option Nat :=
  if s.isEmpty then none
  else s.foldl (fun acc c =>
    match acc, decDigit? c with
    | some a, some d => some (10 * a + d)
    | _, _ => none) (some 0)

/-- Strip leading and trailing whitespace, as `int(...)`/`float(...)` do. -/
def stripB (s : List Nat) : List Nat :=
  ((s.dropWhile isSpaceB).reverse.dropWhile isSpaceB).reverse

/-- Python `int(s)` on the strings this format produces: optional sign
and a non-empty digit run (underscore digit grouping is not modelled;
no input in this development contains it). -/
def pyParseInt (s : List Nat) : Option Int :=
  match stripB s with
  | [] => none
  | c :: r =>
    if c = 43 then (digitsVal? r).map Int.ofNat
    else if c = 45 then (digitsVal? r).map (fun n => -(n : Int))
    else (digitsVal? (c :: r)).map Int.ofNat

/-- The value of a possibly-empty digit run (used for fraction digits). -/
def digitsVal0 (s : List Nat) : Nat :=
  s.foldl (fun a c => 10 * a + (c - 48)) 0

/-- Whether every character of the run is a decimal digit. -/
def allDigitsB (s : List Nat) : Bool := s.all (fun c => 48 ≤ c && c ≤ 57)

/-- Python `float(s)`: optional sign, a mantissa `d+[.d*]`, `.d+` or
`d+.`, and an optional exponent part.  `inf` and `nan` spellings are not
representable in `ℚ` and yield `none` (see the header comment). -/
def pyParseFloat (s : List Nat) : Option ℚ :=
  let t := stripB s
  let (sgn, t) : ℚ × List Nat :=
    match t with
    | 43 :: r => (1, r)
    | 45 :: r => (-1, r)
    | r => (1, r)
  let mant := t.takeWhile (fun c => !(c == 101 || c == 69))
  let rest := t.drop mant.length
  let ipart := mant.takeWhile (fun c => 48 ≤ c && c ≤ 57)
  let after := mant.drop ipart.length
  let fracOk : Option (Nat × Nat) :=
    match after with
    | [] => if ipart.isEmpty then none else some (digitsVal0 ipart, 0)
    | 46 :: fr =>
      if allDigitsB fr ∧ ¬(ipart.isEmpty ∧ fr.isEmpty) then
        some (digitsVal0 ipart * 10 ^ fr.length + digitsVal0 fr, fr.length)
      else none
    | _ => none
  match fracOk with
  | none => none
  | some (m, fl) =>
    let e? : Option Int :=
      match rest with
      | [] => some 0
      | _ :: es =>
        match es with
        | 43 :: ds => (digitsVal? ds).map Int.ofNat
        | 45 :: ds => (digitsVal? ds).map (fun n => -(n : Int))
        | ds => (digitsVal? ds).map Int.ofNat
    match e? with
    | none => none
    | some e => some (sgn * (m : ℚ) * (10 : ℚ) ^ (e - (fl : Int)))

/-- The opportunistic value coercion of `get_head`: try `int`, then
`float`, else keep the string. -/
def coerceVal (s : List Nat) : PyVal :=
  match pyParseInt s with
  | some z => .int z
  | none =>
    match pyParseFloat s with
    | some q => .float q
    | none => .str s

/-- The header dictionary: name/value pairs, most recent first
(`hInsert` prepends, `hFind` returns the most recent binding, which is
exactly the lookup behaviour of the Python dict it models). -/
abbrev Header := List (List Nat × PyVal)

/-- Dictionary update. -/
def hInsert (h : Header) (k : List Nat) (v : PyVal) : Header := (k, v) :: h

/-- Dictionary lookup; a missing key raises `KeyError(key)`. -/
def hFind (h : Header) (k : List Nat) : Except PyErr PyVal :=
  match h.find? (fun p => p.1 = k) with
  | some p => .ok p.2
  | none => .error (.keyError (.str k))

/-- Python `*` on the two header values whose product `get_head` checks:
numbers multiply (int stays int), a string times an int repeats it, and
the remaining combinations raise `TypeError`. -/
def pyMul (a b : PyVal) : Except PyErr PyVal :=
  match a, b with
  | .int x, .int y => .ok (.int (x * y))
  | .int x, .float y => .ok (.float (x * y))
  | .float x, .int y => .ok (.float (x * y))
  | .float x, .float y => .ok (.float (x * y))
  | .str s, .int k => .ok (.str (List.flatten (List.replicate k.toNat s)))
  | .int k, .str s => .ok (.str (List.flatten (List.replicate k.toNat s)))
  | _, _ => .error .typeError

/-- Python `==` between header values: numbers compare by value across
int/float, strings compare by content, and a number never equals a
string. -/
def pyEqVal (a b : PyVal) : Bool :=
  match a, b with
  | .int x, .int y => x == y
  | .int x, .float y => (x : ℚ) == y
  | .float x, .int y => x == (y : ℚ)
  | .float x, .float y => x == y
  | .str s, .str t => s == t
  | _, _ => false

/-- The `:CURVE`-value handling of `get_head`: `value[1]` is the
length-of-length digit `n` (an out-of-range index raises `IndexError`,
a non-digit raises `ValueError`), `int(value[2:n+2])` is the declared
payload byte size and the payload starts `2 + n` characters after the
value group. -/
def curveParse (value : List Nat) (vstart : Nat) : Except PyErr (Nat × Int) :=
  match value.drop 1 with
  | [] => .error .indexError
  | nc :: _ =>
    match decDigit? nc with
    | none => .error .valueError
    | some n =>
      match pyParseInt ((value.drop 2).take n) with
      | none => .error .valueError
      | some size => .ok (vstart + 2 + n, size)

/-- One step of the match loop of `get_head`. -/
def getHeadStep (st : Header × Nat × Int) (m : HMatch) :
    Except PyErr (Header × Nat × Int) :=
  if m.name = strB "CURVE" then
    match curveParse m.value m.vstart with
    | .ok (ds, sz) => .ok (st.1, ds, sz)
    | .error e => .error e
  else
    .ok (hInsert st.1 m.name (coerceVal m.value), st.2.1, st.2.2)

/-- `get_head`: scan the raw string, build the header dictionary and the
payload bounds, then compare `BYT_NR * NR_PT` with the declared payload
size.  The source only prints the mismatch warning; it is returned here
as a diagnostic list so the theorems can observe it (the spec calls this
the `IntegrityWarning`). -/
def get_head (raw : List Nat) :
    Except PyErr (Header × Nat × Int × List (PyVal × Int)) := do
  let (head, dstart, dsize) ← (scan raw 0 0).foldlM getHeadStep ([], 0, 0)
  let bn ← hFind head (strB "BYT_NR")
  let np ← hFind head (strB "NR_PT")
  let calcSize ← pyMul bn np
  let warns := if pyEqVal calcSize (.int dsize) then [] else [(calcSize, dsize)]
  return (head, dstart, dsize, warns)

/-- A numpy byte order: little- or big-endian.  (`=` and the width-1
irrelevant marker normalise to the native order, which is little-endian
on the platforms this tool targets.) -/
inductive ByteOrd where
  | lt
  | bg
  deriving DecidableEq

/-- A numpy numeric kind: signed integer, unsigned integer, float. -/
inductive NumKind where
  | ki
  | ku
  | kf
  deriving DecidableEq

/-- A numpy dtype, as the spec's element descriptor: byte order, kind
and width in bytes. -/
structure Dtype where
  ord : ByteOrd
  kind : NumKind
  width : Nat
  deriving DecidableEq

/-- The widths numpy accepts for each kind (`int8/16/32/64`,
`uint8/16/32/64`, `float16/32/64/128`). -/
def dtypeWidthOk (k : NumKind) (w : Nat) : Bool :=
  match k with
  | .ki | .ku => w == 1 || w == 2 || w == 4 || w == 8
  | .kf => w == 2 || w == 4 || w == 8 || w == 16

/-- `np.dtype(s)` on a three-part format string: byte order character,
kind character, width digits.  Anything else raises `TypeError`. -/
def npDtypeOfString (s : List Nat) : Except PyErr Dtype :=
  match s with
  | o :: k :: rest =>
    match
      (match o with
       | 60 => some ByteOrd.lt
       | 62 => some ByteOrd.bg
       | 61 => some ByteOrd.lt
       | 124 => some ByteOrd.lt
       | _ => none),
      (match k with
       | 105 => some NumKind.ki
       | 117 => some NumKind.ku
       | 102 => some NumKind.kf
       | _ => none),
      digitsVal? rest
    with
    | some ob, some kb, some w =>
      if dtypeWidthOk kb w then .ok ⟨ob, kb, w⟩ else .error .typeError
    | _, _, _ => .error .typeError
  | _ => .error .typeError

/-- Decimal digits of `n`, least significant first, with enough fuel. -/
def digitsRevFuel : Nat → Nat → List Nat
  | 0, _ => []
  | f + 1, n => if n = 0 then [] else n % 10 :: digitsRevFuel f (n / 10)

/-- The decimal rendering of a natural number, as digit characters. -/
def decStr (n : Nat) : List Nat :=
  if n = 0 then [48] else ((digitsRevFuel (n + 1) n).map (fun d => 48 + d)).reverse

/-- Python `str(...)` of an int. -/
def intDec (z : Int) : List Nat :=
  if z < 0 then 45 :: decStr z.natAbs else decStr z.toNat

/-- The character of a dtype kind, as numpy prints it. -/
def kindChar (k : NumKind) : Nat :=
  match k with
  | .ki => 105
  | .ku => 117
  | .kf => 102

/-- `dtype.str`: numpy prints the byte order of a one-byte dtype as the
irrelevant-order marker `|` (code 124) instead of `<`/`>`. -/
def dtypeStr (d : Dtype) : List Nat :=
  (if d.width ≤ 1 then 124 else
    match d.ord with
    | .lt => 60
    | .bg => 62) :: kindChar d.kind :: decStr d.width

/-- The `fmt_isf_to_numpy` dictionary: ISF tokens to numpy format
characters; any other key raises `KeyError`. -/
def fmt_isf_to_numpy (v : PyVal) : Except PyErr (List Nat) :=
  if v = .str (strB "MSB") then .ok (strB ">")
  else if v = .str (strB "LSB") then .ok (strB "<")
  else if v = .str (strB "RP") then .ok (strB "u")
  else if v = .str (strB "RI") then .ok (strB "i")
  else if v = .str (strB "FP") then .ok (strB "f")
  else .error (.keyError v)

/-- The `fmt_numpy_to_isf` dictionary on a single format character. -/
def fmt_numpy_to_isf (c : Nat) : Except PyErr (List Nat) :=
  if c = 62 then .ok (strB "MSB")
  else if c = 60 then .ok (strB "LSB")
  else if c = 117 then .ok (strB "RP")
  else if c = 105 then .ok (strB "RI")
  else if c = 102 then .ok (strB "FP")
  else .error (.keyError (.str [c]))

/-- Python `str(...)` of a header value.  For floats only the shape
matters downstream (any float rendering contains a dot, so a float
`BYT_NR` never parses as a dtype width); the fractional digits of a
non-integral float are not reproduced exactly (Python prints the
shortest round-tripping form), which no theorem below relies on. -/
def pyStr (v : PyVal) : List Nat :=
  match v with
  | .int z => intDec z
  | .float q =>
    (if q < 0 then [45] else []) ++ decStr (⌊|q|⌋.toNat) ++ [46] ++
      decStr ((⌊(|q| - ⌊|q|⌋) * 10 ^ 6⌋).toNat)
  | .str s => s

/-- `get_numpy_fmt`: byte-order character, kind character, then
`str(BYT_NR)`, in the source's evaluation order. -/
def get_numpy_fmt (head : Header) : Except PyErr (List Nat) := do
  let byt_or ← hFind head (strB "BYT_OR")
  let c1 ← fmt_isf_to_numpy byt_or
  let bn_fmt ← hFind head (strB "BN_FMT")
  let c2 ← fmt_isf_to_numpy bn_fmt
  let byt_nr ← hFind head (strB "BYT_NR")
  return c1 ++ c2 ++ pyStr byt_nr

/-- `get_isf_fmt`: the inverse mapping, reading `dtype.str[0]`,
`dtype.str[1]` and `dtype.itemsize`. -/
def get_isf_fmt (d : Dtype) : Except PyErr (PyVal × PyVal × Nat) := do
  let s := dtypeStr d
  let byte_order ← fmt_numpy_to_isf (s.headD 0)
  let binary_format ← fmt_numpy_to_isf ((s.drop 1).headD 0)
  return (.str byte_order, .str binary_format, d.width)

/-- The `w` little-endian bytes of a bit pattern. -/
def patBytesLE : Nat → Nat → List Nat
  | 0, _ => []
  | w + 1, v => v % 256 :: patBytesLE w (v / 256)

/-- The bytes of one element's bit pattern in a given byte order. -/
def patBytes (o : ByteOrd) (w v : Nat) : List Nat :=
  match o with
  | .lt => patBytesLE w v
  | .bg => (patBytesLE w v).reverse

/-- The bit pattern read from little-endian bytes. -/
def bytesPatLE (bs : List Nat) : Nat := bs.foldr (fun b acc => b + 256 * acc) 0

/-- The bit pattern read from bytes in a given byte order. -/
def bytesPat (o : ByteOrd) (bs : List Nat) : Nat :=
  match o with
  | .lt => bytesPatLE bs
  | .bg => bytesPatLE bs.reverse

/-- Split a buffer into `count` chunks of `w` bytes. -/
def chunkEv : Nat → Nat → List Nat → List (List Nat)
  | 0, _, _ => []
  | c + 1, w, bs => bs.take w :: chunkEv c w (bs.drop w)

/-- The real value of an IEEE-754 bit pattern of width 2, 4 or 8 bytes.
Infinities and NaNs have no rational value and are mapped to 0; no
theorem below depends on that choice (pattern equality is what the
round-trip arguments use). -/
def ieeeVal (w p : Nat) : ℚ :=
  let eb : Nat := if w = 2 then 5 else if w = 4 then 8 else if w = 8 then 11 else 0
  let mb : Nat := if w = 2 then 10 else if w = 4 then 23 else if w = 8 then 52 else 0
  if eb = 0 then 0
  else
    let sgn : ℚ := if p / 2 ^ (eb + mb) % 2 = 1 then -1 else 1
    let e := p / 2 ^ mb % 2 ^ eb
    let m := p % 2 ^ mb
    let bias := 2 ^ (eb - 1) - 1
    if e = 2 ^ eb - 1 then 0
    else if e = 0 then sgn * (m : ℚ) * (2 : ℚ) ^ ((1 : Int) - bias - mb)
    else sgn * ((2 ^ mb + m : Nat) : ℚ) * (2 : ℚ) ^ ((e : Int) - bias - mb)

/-- The numeric value of one element's bit pattern under a dtype. -/
def dval (d : Dtype) (p : Nat) : ℚ :=
  match d.kind with
  | .ku => p
  | .ki => if p < 2 ^ (8 * d.width - 1) then (p : ℚ) else (p : ℚ) - 2 ^ (8 * d.width)
  | .kf => ieeeVal d.width p

/-- A numpy array held as raw bit patterns (the arrays handed to the
encoder, and the arrays just read from a buffer). -/
structure PArr where
  dtype : Dtype
  pats : List Nat
  deriving DecidableEq

/-- The numeric values of a pattern array. -/
def PArr.values (a : PArr) : List ℚ := a.pats.map (dval a.dtype)

/-- `ndarray.tobytes()`. -/
def PArr.tobytes (a : PArr) : List Nat :=
  (a.pats.map (patBytes a.dtype.ord a.dtype.width)).flatten

/-- A numpy array held as numeric values (the calibrated outputs). -/
structure Arr where
  dtype : Dtype
  vals : List ℚ
  deriving DecidableEq

/-- `np.ndarray(shape=(count,), dtype=d, buffer=raw)`: numpy raises
`TypeError` when the buffer is smaller than the requested shape needs;
a larger buffer is allowed and only the leading bytes are used. -/
def npFromBuffer (d : Dtype) (count : Nat) (raw : List Nat) :
    Except PyErr (List ℚ) :=
  if raw.length < count * d.width then .error .typeError
  else .ok ((chunkEv count d.width raw).map (fun c => dval d (bytesPat d.ord c)))

/-- Truncation toward zero, as a float-to-int cast truncates. -/
def ratTrunc (q : ℚ) : Int := if q < 0 then ⌈q⌉ else ⌊q⌋

/-- Two's-complement wrap of an integer into a dtype's range (unsigned:
modulo `2^(8w)`; signed: centred). -/
def wrapInt (d : Dtype) (z : Int) : Int :=
  let m : Int := 2 ^ (8 * d.width)
  let r := z % m
  match d.kind with
  | .ku => r
  | _ => if r < 2 ^ (8 * d.width - 1) then r else r - m

/-- Cast a real value into a dtype: integer dtypes truncate toward zero
and wrap, float dtypes keep the value (idealised rounding). -/
def castVal (d : Dtype) (q : ℚ) : ℚ :=
  match d.kind with
  | .kf => q
  | _ => (wrapInt d (ratTrunc q) : ℚ)

/-- The evenly spaced values of `np.linspace(start, stop, num)` with the
endpoint included, before any dtype cast. -/
def linspaceQ (start stop : ℚ) : Nat → List ℚ
  | 0 => []
  | 1 => [start]
  | n + 2 =>
    (List.range (n + 2)).map
      (fun (i : Nat) => start + (i : ℚ) * ((stop - start) / ((n : ℚ) + 1)))

/-- A numeric header value as a rational; strings raise `TypeError`. -/
def pyToQ (v : PyVal) : Except PyErr ℚ :=
  match v with
  | .int z => .ok (z : ℚ)
  | .float q => .ok q
  | .str _ => .error .typeError

/-- `np.linspace(start, stop, num=num, dtype=dstr)`.  `num` must be a
non-negative integer; a float `num` is truncated with `int(num)` (the
behaviour of the numpy releases contemporary with the source — current
numpy rejects it, which would make the whole `ENV` branch fail); a
negative count raises `ValueError`, a string `TypeError`. -/
def linspaceNum : PyVal → Except PyErr Nat
  | .int z => if z < 0 then .error .valueError else .ok z.toNat
  | .float q =>
    if ratTrunc q < 0 then .error .valueError else .ok (ratTrunc q).toNat
  | .str _ => .error .typeError

def np_linspace (start stop num : PyVal) (dstr : List Nat) :
    Except PyErr Arr := do
  let d ← npDtypeOfString dstr
  let s ← pyToQ start
  let e ← pyToQ stop
  let n ← linspaceNum num
  return ⟨d, (linspaceQ s e n).map (castVal d)⟩

/-- A numpy elementwise binary operation with a Python scalar. -/
inductive NpOp where
  | add
  | sub
  | mul
  deriving DecidableEq

/-- Apply one scalar operation to one element value. -/
def npApply (op : NpOp) (v s : ℚ) : ℚ :=
  match op with
  | .add => v + s
  | .sub => v - s
  | .mul => v * s

/-- Whether a Python int fits in an integer dtype. -/
def fitsIn (d : Dtype) (z : Int) : Bool :=
  match d.kind with
  | .ku => 0 ≤ z && z < 2 ^ (8 * d.width)
  | _ => -(2 ^ (8 * d.width - 1)) ≤ z && z < 2 ^ (8 * d.width - 1)

/-- `array op scalar` under the NEP-50 promotion rules: a Python int
scalar keeps the array dtype (`OverflowError` when it does not fit in an
integer dtype, two's-complement wrap on the results); a Python float
scalar keeps a float dtype and promotes an integer dtype to float64; a
string scalar raises `TypeError`. -/
def arrOp (op : NpOp) (a : Arr) (s : PyVal) : Except PyErr Arr :=
  match s with
  | .str _ => .error .typeError
  | .int z =>
    match a.dtype.kind with
    | .kf => .ok ⟨a.dtype, a.vals.map (fun v => npApply op v z)⟩
    | _ =>
      if fitsIn a.dtype z then
        .ok ⟨a.dtype, a.vals.map (fun v => (wrapInt a.dtype (ratTrunc (npApply op v z)) : ℚ))⟩
      else .error .overflowError
  | .float q =>
    match a.dtype.kind with
    | .kf => .ok ⟨a.dtype, a.vals.map (fun v => npApply op v q)⟩
    | _ => .ok ⟨⟨.lt, .kf, 8⟩, a.vals.map (fun v => npApply op v q)⟩

/-- Python `+` on header values: numbers add (int stays int), strings
concatenate, and a number plus a string raises `TypeError`. -/
def pyAdd (a b : PyVal) : Except PyErr PyVal :=
  match a, b with
  | .int x, .int y => .ok (.int (x + y))
  | .int x, .float y => .ok (.float (x + y))
  | .float x, .int y => .ok (.float (x + y))
  | .float x, .float y => .ok (.float (x + y))
  | .str s, .str t => .ok (.str (s ++ t))
  | _, _ => .error .typeError

/-- Python `-` on header values: numbers only. -/
def pySub (a b : PyVal) : Except PyErr PyVal :=
  match a, b with
  | .int x, .int y => .ok (.int (x - y))
  | .int x, .float y => .ok (.float (x - y))
  | .float x, .int y => .ok (.float (x - y))
  | .float x, .float y => .ok (.float (x - y))
  | _, _ => .error .typeError

/-- Python `/` (true division): numbers only, result a float. -/
def pyTrueDiv (a b : PyVal) : Except PyErr PyVal := do
  let x ← pyToQ a
  let y ← pyToQ b
  if y = 0 then .error .zeroDivisionError else .ok (.float (x / y))

/-- Python `//` (floor division): two ints give an int, a float operand
gives a floored float. -/
def pyFloorDiv (a b : PyVal) : Except PyErr PyVal :=
  match a, b with
  | .int x, .int y =>
    if y = 0 then .error .zeroDivisionError else .ok (.int (Int.fdiv x y))
  | .int _, .float _ | .float _, .int _ | .float _, .float _ => do
    let x ← pyToQ a
    let y ← pyToQ b
    if y = 0 then .error .zeroDivisionError else .ok (.float (⌊x / y⌋ : ℚ))
  | _, _ => .error .typeError

/-- A header value used as an ndarray shape entry: numpy wants an int,
non-negative. -/
def shapeOf (v : PyVal) : Except PyErr Nat :=
  match v with
  | .int z => if z < 0 then .error .valueError else .ok z.toNat
  | _ => .error .typeError

/-- `read_data_from_file`: seek to `start_from`, read `data_size` bytes
and fail with the truncated-payload `EOFError`, carrying the expected
and the actual byte counts, when fewer bytes were available.  (A
negative size makes Python's `read` return everything to the end of the
file; a negative seek offset raises an `OSError`, modelled as
`valueError`.) -/
def read_data_from_file (file : List Nat) (start_from data_size : Int) :
    Except PyErr (List Nat) :=
  if start_from < 0 then .error .valueError
  else
    let avail := file.drop start_from.toNat
    let raw := if data_size < 0 then avail else avail.take data_size.toNat
    if (raw.length : Int) = data_size then .ok raw
    else .error (.eofError data_size raw.length)

/-- `convert_data_y`: points modifier from `PT_FMT`, dtype from the
header, an ndarray of `NR_PT // modifier` elements over the raw buffer,
then the calibration `(y - YOFF) * YMULT + YZERO`, with every header
lookup and numpy step in the source's evaluation order. -/
def convert_data_y (raw : List Nat) (head : Header) : Except PyErr Arr := do
  let ptfmt ← hFind head (strB "PT_FMT")
  let pmod : Int :=
    if ptfmt = .str (strB "ENV") ∨ ptfmt = .str (strB "XY") then 2 else 1
  let ntype ← get_numpy_fmt head
  let np ← hFind head (strB "NR_PT")
  let cnt ← shapeOf (← pyFloorDiv np (.int pmod))
  let d ← npDtypeOfString ntype
  let ys ← npFromBuffer d cnt raw
  let yoff ← hFind head (strB "YOFF")
  let a1 ← arrOp .sub ⟨d, ys⟩ yoff
  let ymult ← hFind head (strB "YMULT")
  let a2 ← arrOp .mul a1 ymult
  let yzero ← hFind head (strB "YZERO")
  arrOp .add a2 yzero

/-- `convert_data_x`: only for the `XY` format (an assertion); an
ndarray of `NR_PT // 2` elements, then `(x - PT_OFF) * XINCR + XZERO`. -/
def convert_data_x (raw : List Nat) (head : Header) : Except PyErr Arr := do
  let ptfmt ← hFind head (strB "PT_FMT")
  if ptfmt ≠ .str (strB "XY") then .error .assertionError
  let ntype ← get_numpy_fmt head
  let np ← hFind head (strB "NR_PT")
  let cnt ← shapeOf (← pyFloorDiv np (.int 2))
  let d ← npDtypeOfString ntype
  let xs ← npFromBuffer d cnt raw
  let ptoff ← hFind head (strB "PT_OFF")
  let a1 ← arrOp .sub ⟨d, xs⟩ ptoff
  let xincr ← hFind head (strB "XINCR")
  let a2 ← arrOp .mul a1 xincr
  let xzero ← hFind head (strB "XZERO")
  arrOp .add a2 xzero

/-- The header-parsing stage of `read_isf`: the first 1024 bytes of the
file are read and handed to `get_head`. -/
def headerStage (file : List Nat) :
    Except PyErr (Header × Nat × Int × List (PyVal × Int)) :=
  get_head (file.take 1024)

/-- The decode stage of `read_isf` after the header is parsed: the
format assertions, then one of the three layout branches. -/
def decodeStage (file : List Nat)
    (hs : Header × Nat × Int × List (PyVal × Int)) :
    Except PyErr (Arr × Arr × Header × List (PyVal × Int)) := do
  let (head, dstart, dsize, warns) := hs
  let ptfmt ← hFind head (strB "PT_FMT")
  if ¬(ptfmt = .str (strB "Y") ∨ ptfmt = .str (strB "ENV") ∨
      ptfmt = .str (strB "XY")) then
    .error .assertionError
  let enc ← hFind head (strB "ENCDG")
  if ¬(enc = .str (strB "BIN") ∨ enc = .str (strB "BINARY")) then
    .error .assertionError
  let ntype ← get_numpy_fmt head
  if ptfmt = .str (strB "Y") then
    let xzero ← hFind head (strB "XZERO")
    let xincr ← hFind head (strB "XINCR")
    let np ← hFind head (strB "NR_PT")
    let xstop ← pyAdd xzero (← pyMul xincr np)
    let head := hInsert head (strB "XSTOP") xstop
    let stopv ← pySub xstop xincr
    let x ← np_linspace xzero stopv np ntype
    let raw ← read_data_from_file file dstart dsize
    let y ← convert_data_y raw head
    return (x, y, head, warns)
  else if ptfmt = .str (strB "ENV") then
    let xzero ← hFind head (strB "XZERO")
    let xincr ← hFind head (strB "XINCR")
    let np ← hFind head (strB "NR_PT")
    let xstop ← pyAdd xzero (← pyFloorDiv (← pyMul xincr np) (.int 2))
    let head := hInsert head (strB "XSTOP") xstop
    let stopv ← pySub xstop xincr
    let num ← pyTrueDiv np (.int 2)
    let x ← np_linspace xzero stopv num ntype
    let raw ← read_data_from_file file dstart dsize
    let y ← convert_data_y raw head
    return (x, y, head, warns)
  else
    let raw_x ← read_data_from_file file dstart (Int.fdiv dsize 2)
    let x ← convert_data_x raw_x head
    let raw_y ← read_data_from_file file (dstart + Int.fdiv dsize 2) (Int.fdiv dsize 2)
    let y ← convert_data_y raw_y head
    return (x, y, head, warns)

/-- `read_isf` on a file's bytes: parse the header from the first 1024
bytes, then decode the payload per layout.  The printed size-mismatch
warning is returned as the fourth component. -/
def read_isf (file : List Nat) :
    Except PyErr (Arr × Arr × Header × List (PyVal × Int)) := do
  decodeStage file (← headerStage file)

/-- Scale a value ≥ 1 down into `[1, 10)`, tracking the decimal
exponent (fuelled; the fuel far exceeds any float's exponent). -/
def normUp : Nat → ℚ → Int → Int × ℚ
  | 0, a, e => (e, a)
  | f + 1, a, e => if a < 10 then (e, a) else normUp f (a / 10) (e + 1)

/-- Scale a value in `(0, 1)` up into `[1, 10)`, tracking the decimal
exponent. -/
def normDown : Nat → ℚ → Int → Int × ℚ
  | 0, a, e => (e, a)
  | f + 1, a, e => if 1 ≤ a then (e, a) else normDown f (a * 10) (e - 1)

/-- Python's `format(x, "e")`: sign, one leading digit, six fractional
digits, and a two-digit-minimum signed exponent.  Ties round half-up
here where Python rounds half-even; the encoder only ever formats 0.0
and 1.0, where the two agree. -/
def pyFormatE (v : PyVal) : Except PyErr (List Nat) := do
  let q ← pyToQ v
  if q = 0 then return strB "0.000000e+00"
  else
    let a := |q|
    let (e, m) := if a < 1 then normDown 1400 a 0 else normUp 1400 a 0
    let scaled : Int := ⌊m * 10 ^ 6 + 1 / 2⌋
    let (e, scaled) : Int × Int :=
      if scaled ≥ 10 ^ 7 then (e + 1, 10 ^ 6) else (e, scaled)
    let ds := decStr scaled.toNat
    let ip := ds.take (ds.length - 6)
    let frac := ds.drop (ds.length - 6)
    let sgnS : List Nat := if q < 0 then [45] else []
    let eSign : List Nat := if e < 0 then [45] else [43]
    let eDigits := decStr e.natAbs
    let eDigits := if eDigits.length < 2 then 48 :: eDigits else eDigits
    return sgnS ++ ip ++ [46] ++ frac ++ [101] ++ eSign ++ eDigits

/-- One `NAME value;` piece of `head_to_str` with the default `str`
rendering. -/
def fmtPlainField (head : Header) (name : String) : Except PyErr (List Nat) := do
  return strB name ++ [32] ++ pyStr (← hFind head (strB name)) ++ [59]

/-- One `NAME value;` piece of `head_to_str` with the `:e` rendering. -/
def fmtEField (head : Header) (name : String) : Except PyErr (List Nat) := do
  return strB name ++ [32] ++ (← pyFormatE (← hFind head (strB name))) ++ [59]

/-- `head_to_str`: the fixed field order of the serializer, ending with
the `:CURVE #<digits><byte count>` marker and no trailing delimiter. -/
def head_to_str (head : Header) : Except PyErr (List Nat) := do
  let body :=
    strB ":WFMPRE:" ++ (← fmtPlainField head "NR_PT") ++
    strB ":WFMPRE:" ++ (← fmtPlainField head "BYT_NR") ++
    (← fmtPlainField head "BIT_NR") ++
    (← fmtPlainField head "ENCDG") ++
    (← fmtPlainField head "BN_FMT") ++
    (← fmtPlainField head "BYT_OR") ++
    (← fmtPlainField head "WFID") ++
    (← fmtPlainField head "NR_PT") ++
    (← fmtPlainField head "PT_FMT") ++
    (← fmtPlainField head "XUNIT") ++
    (← fmtEField head "XINCR") ++
    (← fmtEField head "XZERO") ++
    (← fmtEField head "PT_OFF") ++
    (← fmtPlainField head "YUNIT") ++
    (← fmtEField head "YMULT") ++
    (← fmtEField head "YOFF") ++
    (← fmtEField head "YZERO") ++
    (← fmtEField head "VSCALE") ++
    (← fmtEField head "HSCALE") ++
    (← fmtEField head "VPOS") ++
    (← fmtEField head "VOFFSET") ++
    (← fmtEField head "HDELAY") ++
    (← fmtPlainField head "DOMAIN") ++
    (← fmtPlainField head "WFMTYPE") ++
    (← fmtEField head "CENTERFREQUENCY") ++
    (← fmtEField head "SPAN") ++
    (← fmtEField head "REFLEVEL")
  let nb ← pyMul (← hFind head (strB "NR_PT")) (← hFind head (strB "BYT_NR"))
  let digits := (pyStr nb).length
  return body ++ strB ":CURVE #" ++ pyStr (.int digits) ++ pyStr nb

/-- `write_isf_xy`: the shape/dtype assertions, the fixed default
header, the descriptor tokens from the y dtype, and the produced file:
the rendered header (ASCII text) followed by the X bytes then the Y
bytes. -/
def write_isf_xy (arr_x arr_y : PArr) : Except PyErr (List Nat) := do
  if arr_x.pats.length ≠ arr_y.pats.length then .error .assertionError
  if arr_x.dtype ≠ arr_y.dtype then .error .assertionError
  let head : Header := []
  let head := hInsert head (strB "ENCDG") (.str (strB "BINARY"))
  let head := hInsert head (strB "WFID")
    (.str (strB "Python isf-converter-py XY-curve"))
  let head := hInsert head (strB "NR_PT") (.int (arr_y.pats.length * 2))
  let head := hInsert head (strB "PT_FMT") (.str (strB "XY"))
  let head := hInsert head (strB "XUNIT") (.str (strB "a.u."))
  let head := hInsert head (strB "YUNIT") (.str (strB "a.u."))
  let head := hInsert head (strB "VSCALE") (.float 1)
  let head := hInsert head (strB "HSCALE") (.float 1)
  let head := hInsert head (strB "VPOS") (.float 0)
  let head := hInsert head (strB "VOFFSET") (.float 0)
  let head := hInsert head (strB "HDELAY") (.float 0)
  let head := hInsert head (strB "DOMAIN") (.str (strB "TIME"))
  let head := hInsert head (strB "WFMTYPE") (.str (strB "ANALOG"))
  let head := hInsert head (strB "CENTERFREQUENCY") (.float 0)
  let head := hInsert head (strB "SPAN") (.float 0)
  let head := hInsert head (strB "REFLEVEL") (.float 0)
  let (byt_or, bn_fmt, byt_nr) ← get_isf_fmt arr_y.dtype
  let head := hInsert head (strB "BYT_OR") byt_or
  let head := hInsert head (strB "BN_FMT") bn_fmt
  let head := hInsert head (strB "BYT_NR") (.int byt_nr)
  let head := hInsert head (strB "BIT_NR") (.int (byt_nr * 8))
  let head := hInsert head (strB "XZERO") (.float 0)
  let head := hInsert head (strB "XINCR") (.float 1)
  let head := hInsert head (strB "PT_OFF") (.float 0)
  let head := hInsert head (strB "YZERO") (.float 0)
  let head := hInsert head (strB "YMULT") (.float 1)
  let head := hInsert head (strB "YOFF") (.float 0)
  let hs ← head_to_str head
  return hs ++ arr_x.tobytes ++ arr_y.tobytes

/-- The ISF byte-order token written by the encoder for a byte order. -/
def ordTok : ByteOrd → List Nat
  | .lt => strB "LSB"
  | .bg => strB "MSB"

/-- The ISF number-format token written by the encoder for a kind. -/
def kindTok : NumKind → List Nat
  | .ki => strB "RI"
  | .ku => strB "RP"
  | .kf => strB "FP"

/-- The header text rendered by `write_isf_xy` for an n-point pair of
arrays of an element width `w`, laid out chunk by chunk exactly as the
serializer and the scanner consume it. -/
def c1HeadStr (byTok bnTok : List Nat) (w n : Nat) : List Nat :=
  strB ":WFMPRE:" ++ strB "NR_PT" ++ [32] ++ decStr (n * 2) ++ [59] ++
  strB ":WFMPRE:" ++ strB "BYT_NR" ++ [32] ++ decStr w ++ [59] ++
  strB "BIT_NR" ++ [32] ++ decStr (w * 8) ++ [59] ++
  strB "ENCDG" ++ [32] ++ strB "BINARY" ++ [59] ++
  strB "BN_FMT" ++ [32] ++ bnTok ++ [59] ++
  strB "BYT_OR" ++ [32] ++ byTok ++ [59] ++
  strB "WFID" ++ [32] ++ strB "Python isf-converter-py XY-curve" ++ [59] ++
  strB "NR_PT" ++ [32] ++ decStr (n * 2) ++ [59] ++
  strB "PT_FMT" ++ [32] ++ strB "XY" ++ [59] ++
  strB "XUNIT" ++ [32] ++ strB "a.u." ++ [59] ++
  strB "XINCR" ++ [32] ++ strB "1.000000e+00" ++ [59] ++
  strB "XZERO" ++ [32] ++ strB "0.000000e+00" ++ [59] ++
  strB "PT_OFF" ++ [32] ++ strB "0.000000e+00" ++ [59] ++
  strB "YUNIT" ++ [32] ++ strB "a.u." ++ [59] ++
  strB "YMULT" ++ [32] ++ strB "1.000000e+00" ++ [59] ++
  strB "YOFF" ++ [32] ++ strB "0.000000e+00" ++ [59] ++
  strB "YZERO" ++ [32] ++ strB "0.000000e+00" ++ [59] ++
  strB "VSCALE" ++ [32] ++ strB "1.000000e+00" ++ [59] ++
  strB "HSCALE" ++ [32] ++ strB "1.000000e+00" ++ [59] ++
  strB "VPOS" ++ [32] ++ strB "0.000000e+00" ++ [59] ++
  strB "VOFFSET" ++ [32] ++ strB "0.000000e+00" ++ [59] ++
  strB "HDELAY" ++ [32] ++ strB "0.000000e+00" ++ [59] ++
  strB "DOMAIN" ++ [32] ++ strB "TIME" ++ [59] ++
  strB "WFMTYPE" ++ [32] ++ strB "ANALOG" ++ [59] ++
  strB "CENTERFREQUENCY" ++ [32] ++ strB "0.000000e+00" ++ [59] ++
  strB "SPAN" ++ [32] ++ strB "0.000000e+00" ++ [59] ++
  strB "REFLEVEL" ++ [32] ++ strB "0.000000e+00" ++ [59] ++
  strB ":CURVE #" ++
  decStr (decStr (n * 2 * w)).length ++ decStr (n * 2 * w)

/-- The header dictionary `get_head` parses back out of `c1HeadStr`
(most recent binding first). -/
def c1FullHead (byTok bnTok : List Nat) (w n : Nat) : Header :=
  [(strB "REFLEVEL", .float 0), (strB "SPAN", .float 0),
   (strB "CENTERFREQUENCY", .float 0), (strB "WFMTYPE", .str (strB "ANALOG")),
   (strB "DOMAIN", .str (strB "TIME")), (strB "HDELAY", .float 0),
   (strB "VOFFSET", .float 0), (strB "VPOS", .float 0),
   (strB "HSCALE", .float 1), (strB "VSCALE", .float 1),
   (strB "YZERO", .float 0), (strB "YOFF", .float 0),
   (strB "YMULT", .float 1), (strB "YUNIT", .str (strB "a.u.")),
   (strB "PT_OFF", .float 0), (strB "XZERO", .float 0),
   (strB "XINCR", .float 1), (strB "XUNIT", .str (strB "a.u.")),
   (strB "PT_FMT", .str (strB "XY")),
   (strB "NR_PT", .int ((n * 2 : Nat) : Int)),
   (strB "WFID", .str (strB "Python isf-converter-py XY-curve")),
   (strB "BYT_OR", .str byTok), (strB "BN_FMT", .str bnTok),
   (strB "ENCDG", .str (strB "BINARY")),
   (strB "BIT_NR", .int ((w * 8 : Nat) : Int)),
   (strB "BYT_NR", .int ((w : Nat) : Int)),
   (strB "NR_PT", .int ((n * 2 : Nat) : Int))]

/-- The file produced by the XY encoder: the rendered header, the X
bytes, then the Y bytes. -/
def c1File (X Y : PArr) : List Nat :=
  c1HeadStr (ordTok Y.dtype.ord) (kindTok Y.dtype.kind)
    Y.dtype.width Y.pats.length ++ X.tobytes ++ Y.tobytes

/-- The header dictionary `write_isf_xy` assembles before rendering it
(most recent binding first). -/
def c1WriteHead (byTok bnTok : List Nat) (w n : Nat) : Header :=
  [(strB "YOFF", .float 0), (strB "YMULT", .float 1),
   (strB "YZERO", .float 0), (strB "PT_OFF", .float 0),
   (strB "XINCR", .float 1), (strB "XZERO", .float 0),
   (strB "BIT_NR", .int ((w : Int) * 8)), (strB "BYT_NR", .int (w : Int)),
   (strB "BN_FMT", .str bnTok), (strB "BYT_OR", .str byTok),
   (strB "REFLEVEL", .float 0), (strB "SPAN", .float 0),
   (strB "CENTERFREQUENCY", .float 0),
   (strB "WFMTYPE", .str (strB "ANALOG")),
   (strB "DOMAIN", .str (strB "TIME")), (strB "HDELAY", .float 0),
   (strB "VOFFSET", .float 0), (strB "VPOS", .float 0),
   (strB "HSCALE", .float 1), (strB "VSCALE", .float 1),
   (strB "YUNIT", .str (strB "a.u.")), (strB "XUNIT", .str (strB "a.u.")),
   (strB "PT_FMT", .str (strB "XY")),
   (strB "NR_PT", .int ((n : Int) * 2)),
   (strB "WFID", .str (strB "Python isf-converter-py XY-curve")),
   (strB "ENCDG", .str (strB "BINARY"))]

/-- The greedy value run stops exactly at `rest`. -/
def valStop (rest : List Nat) : Prop :=
  rest = [] ∨ ∃ c t, rest = c :: t ∧ isValueB c = false

/-- The byte-order character numpy prints for a multi-byte dtype. -/
def ordChar : ByteOrd → Nat
  | .lt => 60
  | .bg => 62

/-- The dtype of an array after an operation with a float scalar. -/
def resDtypeF (d : Dtype) : Dtype :=
  match d.kind with
  | .kf => d
  | _ => ⟨.lt, .kf, 8⟩

/-- `resolve` followed by `unresolve` of the spec's descriptor table:
build the numpy format string from the tokens (`get_numpy_fmt`), realise
it as a dtype (`np.dtype`), and map it back to tokens (`get_isf_fmt`). -/
def resolve_then_unresolve (byt_or bn_fmt : PyVal) (byt_nr : Int) :
    Except PyErr (PyVal × PyVal × Nat) := do
  let s ← get_numpy_fmt
    [(strB "BYT_OR", byt_or), (strB "BN_FMT", bn_fmt), (strB "BYT_NR", .int byt_nr)]
  let d ← npDtypeOfString s
  get_isf_fmt d

/-- The X array of the C1 counterexample: its four little-endian int16
patterns serialize to the bytes of the text `;YMULT 2`. -/
def cx1X : PArr := ⟨⟨.lt, .ki, 2⟩, [0x593B, 0x554D, 0x544C, 0x3220]⟩

/-- The Y array of the C1 counterexample. -/
def cx1Y : PArr := ⟨⟨.lt, .ki, 2⟩, [0x3B, 1, 1, 1]⟩

/-- The file `write_isf_xy cx1X cx1Y` produces, as a byte literal. -/
def cx1File : List Nat :=
  [58, 87, 70, 77, 80, 82, 69, 58, 78, 82, 95, 80, 84, 32, 56, 59, 58, 87,
   70, 77, 80, 82, 69, 58, 66, 89, 84, 95, 78, 82, 32, 50, 59, 66, 73, 84,
   95, 78, 82, 32, 49, 54, 59, 69, 78, 67, 68, 71, 32, 66, 73, 78, 65, 82,
   89, 59, 66, 78, 95, 70, 77, 84, 32, 82, 73, 59, 66, 89, 84, 95, 79, 82,
   32, 76, 83, 66, 59, 87, 70, 73, 68, 32, 80, 121, 116, 104, 111, 110, 32, 105,
   115, 102, 45, 99, 111, 110, 118, 101, 114, 116, 101, 114, 45, 112, 121, 32, 88, 89,
   45, 99, 117, 114, 118, 101, 59, 78, 82, 95, 80, 84, 32, 56, 59, 80, 84, 95,
   70, 77, 84, 32, 88, 89, 59, 88, 85, 78, 73, 84, 32, 97, 46, 117, 46, 59,
   88, 73, 78, 67, 82, 32, 49, 46, 48, 48, 48, 48, 48, 48, 101, 43, 48, 48,
   59, 88, 90, 69, 82, 79, 32, 48, 46, 48, 48, 48, 48, 48, 48, 101, 43, 48,
   48, 59, 80, 84, 95, 79, 70, 70, 32, 48, 46, 48, 48, 48, 48, 48, 48, 101,
   43, 48, 48, 59, 89, 85, 78, 73, 84, 32, 97, 46, 117, 46, 59, 89, 77, 85,
   76, 84, 32, 49, 46, 48, 48, 48, 48, 48, 48, 101, 43, 48, 48, 59, 89, 79,
   70, 70, 32, 48, 46, 48, 48, 48, 48, 48, 48, 101, 43, 48, 48, 59, 89, 90,
   69, 82, 79, 32, 48, 46, 48, 48, 48, 48, 48, 48, 101, 43, 48, 48, 59, 86,
   83, 67, 65, 76, 69, 32, 49, 46, 48, 48, 48, 48, 48, 48, 101, 43, 48, 48,
   59, 72, 83, 67, 65, 76, 69, 32, 49, 46, 48, 48, 48, 48, 48, 48, 101, 43,
   48, 48, 59, 86, 80, 79, 83, 32, 48, 46, 48, 48, 48, 48, 48, 48, 101, 43,
   48, 48, 59, 86, 79, 70, 70, 83, 69, 84, 32, 48, 46, 48, 48, 48, 48, 48,
   48, 101, 43, 48, 48, 59, 72, 68, 69, 76, 65, 89, 32, 48, 46, 48, 48, 48,
   48, 48, 48, 101, 43, 48, 48, 59, 68, 79, 77, 65, 73, 78, 32, 84, 73, 77,
   69, 59, 87, 70, 77, 84, 89, 80, 69, 32, 65, 78, 65, 76, 79, 71, 59, 67,
   69, 78, 84, 69, 82, 70, 82, 69, 81, 85, 69, 78, 67, 89, 32, 48, 46, 48,
   48, 48, 48, 48, 48, 101, 43, 48, 48, 59, 83, 80, 65, 78, 32, 48, 46, 48,
   48, 48, 48, 48, 48, 101, 43, 48, 48, 59, 82, 69, 70, 76, 69, 86, 69, 76,
   32, 48, 46, 48, 48, 48, 48, 48, 48, 101, 43, 48, 48, 59, 58, 67, 85, 82,
   86, 69, 32, 35, 50, 49, 54, 59, 89, 77, 85, 76, 84, 32, 50, 59, 0, 1,
   0, 1, 0, 1, 0]

/-- The Y-scenario file of the spec (claim C3): `NR_PT=4, BYT_NR=2,
BN_FMT=RI, BYT_OR=LSB, PT_FMT=Y`, identity X axis, `YMULT=2`, signed
16-bit little-endian payload `[1,2,3,4]`. -/
def scenarioYFile : List Nat :=
  strB ":NR_PT 4;BYT_NR 2;BIT_NR 16;ENCDG BIN;BN_FMT RI;BYT_OR LSB;PT_FMT Y;XZERO 0;XINCR 1;YZERO 0;YMULT 2;YOFF 0;:CURVE #18" ++
  [1, 0, 2, 0, 3, 0, 4, 0]

/-- A Y-format file with a fractional `XINCR` (0.5) over a signed 16-bit
payload: the documented conversion gives `X = [0, 0.5]`. -/
def fracXIncrFile : List Nat :=
  strB ":NR_PT 2;BYT_NR 2;BIT_NR 16;ENCDG BIN;BN_FMT RI;BYT_OR LSB;PT_FMT Y;XZERO 0;XINCR 0.5;YZERO 0;YMULT 1;YOFF 0;:CURVE #14" ++
  [1, 0, 2, 0]

/-- An ENV-format file with `NR_PT=4` and four signed 16-bit min/max
samples `[1,2,3,4]`. -/
def envFile : List Nat :=
  strB ":NR_PT 4;BYT_NR 2;BIT_NR 16;ENCDG BIN;BN_FMT RI;BYT_OR LSB;PT_FMT ENV;XZERO 0;XINCR 1;YZERO 0;YMULT 1;YOFF 0;:CURVE #18" ++
  [1, 0, 2, 0, 3, 0, 4, 0]

/-- A header-only input with `BYT_NR` and `NR_PT` but no `CURVE` binary
block marker. -/
def noCurveRaw : List Nat := strB ":BYT_NR 2;NR_PT 4;"

/-- The result `get_head` produces on `noCurveRaw`. -/
def noCurveRes : Header × Nat × Int × List (PyVal × Int) :=
  ([(strB "NR_PT", .int 4), (strB "BYT_NR", .int 2)], 0, 0, [(.int 8, 0)])

/-- A Y-format file whose binary marker declares two payload bytes while
`BYT_NR * NR_PT = 8`: the dtype/size check inside the array constructor
rejects the two-byte buffer. -/
def c6ShortFile : List Nat :=
  strB ":NR_PT 4;BYT_NR 2;BIT_NR 16;ENCDG BIN;BN_FMT RI;BYT_OR LSB;PT_FMT Y;XZERO 0.0;XINCR 1.0;:CURVE #12" ++
  [1, 0]

/-- The header parsed from `c6ShortFile`. -/
def c6ShortHead : Header :=
  [(strB "XINCR", .float 1), (strB "XZERO", .float 0),
   (strB "PT_FMT", .str (strB "Y")), (strB "BYT_OR", .str (strB "LSB")),
   (strB "BN_FMT", .str (strB "RI")), (strB "ENCDG", .str (strB "BIN")),
   (strB "BIT_NR", .int 16), (strB "BYT_NR", .int 2),
   (strB "NR_PT", .int 4)]

/-- The Y-format file of the C6 witness: the marker declares six payload
bytes while `BYT_NR * NR_PT = 4`. -/
def c6LongFile : List Nat :=
  strB ":NR_PT 2;BYT_NR 2;BIT_NR 16;ENCDG BIN;BN_FMT RI;BYT_OR LSB;PT_FMT Y;XZERO 0.0;XINCR 1.0;YMULT 1.0;YOFF 0.0;YZERO 0.0;:CURVE #16" ++
  [1, 0, 2, 0, 9, 9]

/-- The header parsed from `c6LongFile`. -/
def c6LongHead : Header :=
  [(strB "YZERO", .float 0), (strB "YOFF", .float 0),
   (strB "YMULT", .float 1),
   (strB "XINCR", .float 1), (strB "XZERO", .float 0),
   (strB "PT_FMT", .str (strB "Y")), (strB "BYT_OR", .str (strB "LSB")),
   (strB "BN_FMT", .str (strB "RI")), (strB "ENCDG", .str (strB "BIN")),
   (strB "BIT_NR", .int 16), (strB "BYT_NR", .int 2),
   (strB "NR_PT", .int 2)]

/-- The Y-format file of the C9 witness: all required fields except
`YMULT`. -/
def yMissingFile : List Nat :=
  strB ":NR_PT 2;BYT_NR 2;BIT_NR 16;ENCDG BIN;BN_FMT RI;BYT_OR LSB;PT_FMT Y;XZERO 0.0;XINCR 1.0;YZERO 0.0;YOFF 0.0;:CURVE #14" ++
  [1, 0, 2, 0]

/-- The header parsed from `yMissingFile`. -/
def yMissingHead : Header :=
  [(strB "YOFF", .float 0), (strB "YZERO", .float 0),
   (strB "XINCR", .float 1), (strB "XZERO", .float 0),
   (strB "PT_FMT", .str (strB "Y")), (strB "BYT_OR", .str (strB "LSB")),
   (strB "BN_FMT", .str (strB "RI")), (strB "ENCDG", .str (strB "BIN")),
   (strB "BIT_NR", .int 16), (strB "BYT_NR", .int 2),
   (strB "NR_PT", .int 2)]

deriving instance DecidableEq for Except

/-! ## Properties of the decimal rendering -/

theorem digitsRevFuel_lt_ten {f n : Nat} : ∀ d ∈ digitsRevFuel f n, d < 10 := by
  induction f generalizing n with
  | zero => intro d hd; simp [digitsRevFuel] at hd
  | succ f ih =>
    intro d hd
    by_cases h0 : n = 0
    · simp [digitsRevFuel, h0] at hd
    · simp only [digitsRevFuel, h0, if_false, List.mem_cons] at hd
      rcases hd with rfl | hd
      · exact Nat.mod_lt _ (by omega)
      · exact ih _ hd

theorem digitsRevFuel_length_le {f n k : Nat} (h : n < 10 ^ k) :
    (digitsRevFuel f n).length ≤ k := by
  induction f generalizing n k with
  | zero => simp [digitsRevFuel]
  | succ f ih =>
    by_cases h0 : n = 0
    · simp [digitsRevFuel, h0]
    · have hk1 : 1 ≤ k := by
        rcases Nat.eq_zero_or_pos k with rfl | h1
        · simp at h; omega
        · exact h1
      simp only [digitsRevFuel, h0, if_false, List.length_cons]
      have hdiv : n / 10 < 10 ^ (k - 1) := by
        have h10 : (10 : Nat) ^ k = 10 ^ (k - 1) * 10 := by
          rw [← pow_succ]
          congr 1
          omega
        rw [Nat.div_lt_iff_lt_mul (by omega), ← h10]
        exact h
      have := ih (n := n / 10) (k := k - 1) hdiv
      omega

theorem digitsRevFuel_foldl (f : Nat) : ∀ (n acc : Nat), n ≤ f →
    List.foldl (fun a c => 10 * a + (c - 48))
      acc (((digitsRevFuel f n).map (fun d => 48 + d)).reverse) =
    acc * 10 ^ (digitsRevFuel f n).length + n := by
  induction f with
  | zero =>
    intro n acc hn
    have : n = 0 := by omega
    subst this
    simp [digitsRevFuel]
  | succ f ih =>
    intro n acc hn
    by_cases h0 : n = 0
    · subst h0; simp [digitsRevFuel]
    · simp only [digitsRevFuel, h0, if_false, List.map_cons, List.reverse_cons,
        List.foldl_append, List.foldl_cons, List.foldl_nil, List.length_cons]
      have hdiv : n / 10 ≤ f := by
        have : n / 10 < n := Nat.div_lt_self (by omega) (by omega)
        omega
      rw [ih (n / 10) acc hdiv]
      have hmod : 48 + n % 10 - 48 = n % 10 := by omega
      rw [hmod]
      have := Nat.div_add_mod n 10
      ring_nf
      omega

theorem decStr_digits {n : Nat} : ∀ c ∈ decStr n, 48 ≤ c ∧ c ≤ 57 := by
  intro c hc
  by_cases h0 : n = 0
  · simp [decStr, h0] at hc; omega
  · simp only [decStr, h0, if_false, List.mem_reverse, List.mem_map] at hc
    obtain ⟨d, hd, rfl⟩ := hc
    have := digitsRevFuel_lt_ten _ hd
    omega

theorem decStr_ne_nil {n : Nat} : decStr n ≠ [] := by
  by_cases h0 : n = 0
  · simp [decStr, h0]
  · simp only [decStr, h0, if_false, ne_eq, List.reverse_eq_nil_iff, List.map_eq_nil_iff]
    cases f : digitsRevFuel (n + 1) n with
    | nil =>
      exfalso
      have := digitsRevFuel_foldl (n + 1) n 0 (Nat.le_succ n)
      rw [f] at this
      simp at this
      omega
    | cons a t => simp

theorem digitsVal0_decStr (n : Nat) : digitsVal0 (decStr n) = n := by
  by_cases h0 : n = 0
  · simp [decStr, h0, digitsVal0]
  · simp only [decStr, h0, if_false, digitsVal0]
    have := digitsRevFuel_foldl (n + 1) n 0 (Nat.le_succ n)
    simpa using this

theorem decStr_length_le {n k : Nat} (h : n < 10 ^ k) (hk : 1 ≤ k) :
    (decStr n).length ≤ k := by
  by_cases h0 : n = 0
  · simp [decStr, h0]; omega
  · simp only [decStr, h0, if_false, List.length_reverse, List.length_map]
    exact digitsRevFuel_length_le h

theorem decStr_single {n : Nat} (h : n < 10) : decStr n = [48 + n] := by
  by_cases h0 : n = 0
  · simp [decStr, h0]
  · simp only [decStr, h0, if_false]
    rw [show digitsRevFuel (n + 1) n = [n % 10] from ?_]
    · simp [Nat.mod_eq_of_lt h]
    · cases n with
      | zero => omega
      | succ m =>
        simp only [digitsRevFuel, if_false]
        rw [Nat.div_eq_of_lt h]
        simp [digitsRevFuel]

theorem digitsVal?_foldl_digits {s : List Nat}
    (hs : ∀ c ∈ s, 48 ≤ c ∧ c ≤ 57) : ∀ a : Nat,
    List.foldl (fun acc c =>
      match acc, decDigit? c with
      | some x, some d => some (10 * x + d)
      | _, _ => none) (some a) s =
    some (List.foldl (fun x c => 10 * x + (c - 48)) a s) := by
  induction s with
  | nil => intro a; rfl
  | cons c t ih =>
    intro a
    have hc := hs c (List.mem_cons_self ..)
    have ht : ∀ c ∈ t, 48 ≤ c ∧ c ≤ 57 := fun x hx => hs x (List.mem_cons_of_mem _ hx)
    simp only [List.foldl_cons]
    rw [show decDigit? c = some (c - 48) by simp [decDigit?, hc.1, hc.2]]
    exact ih ht (10 * a + (c - 48))

theorem digitsVal?_of_digits {s : List Nat} (hne : s ≠ [])
    (hs : ∀ c ∈ s, 48 ≤ c ∧ c ≤ 57) :
    digitsVal? s = some (digitsVal0 s) := by
  unfold digitsVal? digitsVal0
  rw [if_neg (by simpa using hne)]
  exact digitsVal?_foldl_digits hs 0

theorem digitsVal?_decStr (n : Nat) : digitsVal? (decStr n) = some n := by
  rw [digitsVal?_of_digits decStr_ne_nil decStr_digits, digitsVal0_decStr]

theorem dropWhile_eq_self_of_neg {p : Nat → Bool} {l : List Nat}
    (h : ∀ c ∈ l, p c = false) : l.dropWhile p = l := by
  cases l with
  | nil => rfl
  | cons c t => simp [List.dropWhile_cons, h c (List.mem_cons_self ..)]

theorem stripB_of_no_space {s : List Nat}
    (hs : ∀ c ∈ s, isSpaceB c = false) : stripB s = s := by
  unfold stripB
  rw [dropWhile_eq_self_of_neg hs,
    dropWhile_eq_self_of_neg (fun c hc => hs c (List.mem_reverse.1 hc)),
    List.reverse_reverse]

theorem digit_not_space {c : Nat} (h : 48 ≤ c ∧ c ≤ 57) : isSpaceB c = false := by
  simp [isSpaceB]; omega

theorem pyParseInt_decStr (n : Nat) : pyParseInt (decStr n) = some (n : Int) := by
  have hstrip : stripB (decStr n) = decStr n :=
    stripB_of_no_space (fun c hc => digit_not_space (decStr_digits c hc))
  have h1 : digitsVal? (decStr n) = some n := digitsVal?_decStr n
  rcases hd : decStr n with _ | ⟨c, t⟩
  · exact absurd hd decStr_ne_nil
  · have hc := decStr_digits c (by rw [hd]; exact List.mem_cons_self ..)
    have h43 : ¬(c = 43) := by omega
    have h45 : ¬(c = 45) := by omega
    rw [hd] at hstrip h1
    unfold pyParseInt
    rw [hstrip]
    simp [h43, h45, h1]

/-! ## Properties of the header scan -/

theorem scan_cons_skip (c : Nat) (t : List Nat) (pos k : Nat) :
    scan (c :: t) pos (k + 1) = scan t (pos + 1) k := rfl

theorem scan_cons_zero (c : Nat) (t : List Nat) (pos : Nat) :
    scan (c :: t) pos 0 =
      match matchAt (c :: t) with
      | some m =>
        { name := m.name, value := m.value, vstart := pos + m.voff } ::
          scan t (pos + 1) (m.len - 1)
      | none => scan t (pos + 1) 0 := rfl

theorem scan_append_skip : ∀ (x r : List Nat) (pos e : Nat),
    scan (x ++ r) pos (x.length + e) = scan r (pos + x.length) e := by
  intro x
  induction x with
  | nil =>
    intro r pos e
    simp
  | cons c x ih =>
    intro r pos e
    rw [show (c :: x).length + e = (x.length + e) + 1 by simp; omega]
    rw [List.cons_append, scan_cons_skip, ih]
    congr 1
    simp
    omega

theorem matchAt_not_delim {c : Nat} {t : List Nat} (h : isDelimB c = false) :
    matchAt (c :: t) = none := by
  simp [matchAt, h]

theorem space_not_word {c : Nat} (h : isSpaceB c = true) : isWordB c = false := by
  revert h
  simp [isSpaceB, isWordB]
  omega

theorem matchAt_word_nonspace {d c : Nat} {w t : List Nat}
    (hd : isDelimB d = true) (hw : ∀ x ∈ w, isWordB x = true)
    (hc1 : isWordB c = false) (hc2 : isSpaceB c = false) :
    matchAt (d :: (w ++ c :: t)) = none := by
  simp only [matchAt]
  rw [if_pos hd]
  have htw : (w ++ c :: t).takeWhile isWordB = w := by
    rw [List.takeWhile_append_of_pos hw, List.takeWhile_cons_of_neg (by simp [hc1])]
    simp
  rw [htw]
  by_cases hwe : w.isEmpty
  · simp [hwe]
  · rw [if_neg (by simpa using hwe)]
    rw [List.drop_left' rfl]
    simp [hc2]

theorem takeWhile_value {value rest : List Nat}
    (hv : ∀ c ∈ value, isValueB c = true) (hr : valStop rest) :
    (value ++ rest).takeWhile isValueB = value := by
  rw [List.takeWhile_append_of_pos hv]
  rcases hr with rfl | ⟨c, t, rfl, hc⟩
  · simp
  · rw [List.takeWhile_cons_of_neg (by simp [hc])]
    simp

theorem matchAt_seg {d sp : Nat} {name value rest : List Nat}
    (hd : isDelimB d = true) (hn : name ≠ [])
    (hw : ∀ c ∈ name, isWordB c = true)
    (hsp : isSpaceB sp = true)
    (hv : ∀ c ∈ value, isValueB c = true) (hvn : value ≠ [])
    (hr : valStop rest) :
    matchAt (d :: (name ++ sp :: (value ++ rest))) =
      some { name := name, value := value, voff := 2 + name.length,
             len := 2 + name.length + value.length } := by
  simp only [matchAt]
  rw [if_pos hd]
  have hspw : isWordB sp = false := space_not_word hsp
  have htw : (name ++ sp :: (value ++ rest)).takeWhile isWordB = name := by
    rw [List.takeWhile_append_of_pos hw, List.takeWhile_cons_of_neg (by simp [hspw])]
    simp
  rw [htw, if_neg (by simpa using hn), List.drop_left' rfl]
  simp only [List.headD_cons, List.tail_cons]
  rw [if_pos hsp]
  rcases hvv : value with _ | ⟨v0, vt⟩
  · exact absurd hvv hvn
  · have hv0 : isValueB v0 = true := hv v0 (by rw [hvv]; exact List.mem_cons_self ..)
    have h34 : ¬(v0 = 34) := by
      intro h
      rw [h] at hv0
      simp [isValueB] at hv0
    rw [show (v0 :: vt) ++ rest = v0 :: (vt ++ rest) by simp]
    simp only [List.headD_cons, if_neg h34]
    have htv : (v0 :: (vt ++ rest)).takeWhile isValueB = v0 :: vt := by
      have := @takeWhile_value (v0 :: vt) rest (by rw [← hvv]; exact hv) hr
      simpa using this
    rw [htv]
    rw [if_neg (by simp)]
    simp only [Option.some.injEq, PreMatch.mk.injEq]
    refine ⟨trivial, trivial, by omega, by omega⟩

theorem scan_skip_nondelim : ∀ (j : List Nat), (∀ c ∈ j, isDelimB c = false) →
    ∀ (r : List Nat) (pos : Nat), scan (j ++ r) pos 0 = scan r (pos + j.length) 0 := by
  intro j
  induction j with
  | nil => intro _ r pos; simp
  | cons c t ih =>
    intro h r pos
    rw [List.cons_append, scan_cons_zero,
      matchAt_not_delim (h c (List.mem_cons_self ..))]
    rw [ih (fun x hx => h x (List.mem_cons_of_mem _ hx)) r (pos + 1)]
    rw [show pos + (c :: t).length = pos + 1 + t.length by
      simp only [List.length_cons]; omega]

theorem scan_all_nondelim : ∀ (l : List Nat), (∀ c ∈ l, isDelimB c = false) →
    ∀ (pos k : Nat), scan l pos k = [] := by
  intro l
  induction l with
  | nil => intro _ pos k; rfl
  | cons c t ih =>
    intro h pos k
    cases k with
    | zero =>
      rw [scan_cons_zero, matchAt_not_delim (h c (List.mem_cons_self ..))]
      exact ih (fun x hx => h x (List.mem_cons_of_mem _ hx)) _ _
    | succ k =>
      rw [scan_cons_skip]
      exact ih (fun x hx => h x (List.mem_cons_of_mem _ hx)) _ _

/-- Scanning one well-formed `NAME value` segment: the match is emitted
and the scan resumes right after the value. -/
theorem scan_seg {d sp : Nat} {name value rest : List Nat}
    (hd : isDelimB d = true) (hn : name ≠ [])
    (hw : ∀ c ∈ name, isWordB c = true)
    (hsp : isSpaceB sp = true)
    (hv : ∀ c ∈ value, isValueB c = true) (hvn : value ≠ [])
    (hr : valStop rest) (pos : Nat) :
    scan (d :: (name ++ sp :: (value ++ rest))) pos 0 =
      { name := name, value := value, vstart := pos + (2 + name.length) } ::
        scan rest (pos + (2 + name.length + value.length)) 0 := by
  rw [scan_cons_zero, matchAt_seg hd hn hw hsp hv hvn hr]
  have hskip : 2 + name.length + value.length - 1 =
      (name ++ sp :: value).length + 0 := by
    simp
    omega
  simp only [hskip]
  rw [show name ++ sp :: (value ++ rest) = (name ++ sp :: value) ++ rest by simp]
  rw [scan_append_skip]
  congr 2
  simp
  omega

/-- Skipping a `;` that is directly followed by a non-word, non-space
character (as in `;:`). -/
theorem scan_semi_nonword {c : Nat} {t : List Nat} (pos : Nat)
    (hc1 : isWordB c = false) (hc2 : isSpaceB c = false) :
    scan (59 :: c :: t) pos 0 = scan (c :: t) (pos + 1) 0 := by
  have hm : matchAt (59 :: c :: t) = none := by
    simpa using matchAt_word_nonspace (w := []) (d := 59) (by decide)
      (fun x hx => absurd hx (List.not_mem_nil x)) hc1 hc2
  rw [scan_cons_zero, hm]

theorem dropWhile_head_false {p : Nat → Bool} :
    ∀ {c : Nat} {ls t : List Nat}, ls.dropWhile p = c :: t → p c = false := by
  intro c ls
  induction ls with
  | nil => intro t h; simp [List.dropWhile] at h
  | cons a l ih =>
    intro t h
    rw [List.dropWhile_cons] at h
    by_cases hp : p a
    · rw [if_pos hp] at h
      exact ih h
    · rw [if_neg hp] at h
      cases h
      simpa using hp

/-- Skipping the `:WFMPRE` prelude in front of a `:`-led segment. -/
theorem scan_wfmpre {t : List Nat} (pos : Nat) :
    scan (58 :: (strB "WFMPRE" ++ 58 :: t)) pos 0 =
      scan (58 :: t) (pos + 7) 0 := by
  rw [scan_cons_zero,
    matchAt_word_nonspace (w := strB "WFMPRE") (by decide) (by decide)
      (by decide) (by decide)]
  rw [scan_skip_nondelim (strB "WFMPRE") (by decide) (58 :: t) (pos + 1)]
  congr 1

/-- Scanning the final `NAME value…` token whose greedy value run ends
the buffer: everything after the single whitespace is delimiter-free, so
one match is produced and the scan ends. -/
theorem scan_last {d sp : Nat} {name region : List Nat} (pos : Nat)
    (hd : isDelimB d = true) (hn : name ≠ [])
    (hw : ∀ c ∈ name, isWordB c = true)
    (hsp : isSpaceB sp = true)
    (hreg : ∀ c ∈ region, isDelimB c = false)
    (hne : region.takeWhile isValueB ≠ []) :
    scan (d :: (name ++ sp :: region)) pos 0 =
      [{ name := name, value := region.takeWhile isValueB,
         vstart := pos + (2 + name.length) }] := by
  have hsplit : region = region.takeWhile isValueB ++ region.dropWhile isValueB :=
    (List.takeWhile_append_dropWhile isValueB region).symm
  have hvals : ∀ c ∈ region.takeWhile isValueB, isValueB c = true :=
    fun c hc => List.mem_takeWhile_imp hc
  have hstop : valStop (region.dropWhile isValueB) := by
    rcases hdw : region.dropWhile isValueB with _ | ⟨c, t⟩
    · exact Or.inl rfl
    · exact Or.inr ⟨c, t, rfl, dropWhile_head_false hdw⟩
  rw [show name ++ sp :: region =
      name ++ sp :: (region.takeWhile isValueB ++ region.dropWhile isValueB) by
    rw [← hsplit]]
  rw [scan_seg hd hn hw hsp hvals hne hstop]
  rw [scan_all_nondelim _
    (fun c hc => hreg c (List.dropWhile_subset _ hc)) _ _]

/-! ## Byte-level round trip -/

theorem patBytesLE_length (w v : Nat) : (patBytesLE w v).length = w := by
  induction w generalizing v with
  | zero => rfl
  | succ w ih => simp [patBytesLE, ih]

theorem patBytes_length (o : ByteOrd) (w v : Nat) :
    (patBytes o w v).length = w := by
  cases o <;> simp [patBytes, patBytesLE_length]

theorem bytesPatLE_patBytesLE (w v : Nat) :
    bytesPatLE (patBytesLE w v) = v % 256 ^ w := by
  induction w generalizing v with
  | zero => simp [patBytesLE, bytesPatLE, Nat.mod_one]
  | succ w ih =>
    simp only [patBytesLE, bytesPatLE, List.foldr_cons]
    have : (patBytesLE w (v / 256)).foldr (fun b acc => b + 256 * acc) 0 =
        bytesPatLE (patBytesLE w (v / 256)) := rfl
    rw [this, ih]
    rw [pow_succ, mul_comm (256 ^ w) 256, Nat.mod_mul]

theorem bytesPat_patBytes (o : ByteOrd) (w v : Nat) :
    bytesPat o (patBytes o w v) = v % 256 ^ w := by
  cases o with
  | lt => exact bytesPatLE_patBytesLE w v
  | bg =>
    show bytesPatLE (patBytesLE w v).reverse.reverse = _
    rw [List.reverse_reverse]
    exact bytesPatLE_patBytesLE w v

theorem chunkEv_blocks {w : Nat} :
    ∀ (blocks : List (List Nat)) (rest : List Nat),
      (∀ b ∈ blocks, b.length = w) →
      chunkEv blocks.length w (blocks.flatten ++ rest) = blocks := by
  intro blocks
  induction blocks with
  | nil => intro rest _; rfl
  | cons b bs ih =>
    intro rest hlen
    simp only [List.length_cons, chunkEv, List.flatten_cons, List.append_assoc]
    have hb : b.length = w := hlen b (List.mem_cons_self ..)
    rw [List.take_left' hb, List.drop_left' hb]
    rw [ih rest (fun x hx => hlen x (List.mem_cons_of_mem _ hx))]

theorem tobytes_length (a : PArr) :
    a.tobytes.length = a.pats.length * a.dtype.width := by
  unfold PArr.tobytes
  rw [List.length_flatten]
  induction a.pats with
  | nil => simp
  | cons p ps ih =>
    simp only [List.map_cons, List.map_map, List.sum_cons] at ih ⊢
    rw [ih]
    simp [patBytes_length]
    ring

/-- Reading back the serialized patterns of an array (plus any trailing
bytes) recovers its element values. -/
theorem npFromBuffer_tobytes (d : Dtype) (pats : List Nat) (rest : List Nat)
    (hb : ∀ p ∈ pats, p < 256 ^ d.width) :
    npFromBuffer d pats.length (PArr.tobytes ⟨d, pats⟩ ++ rest) =
      .ok (pats.map (dval d)) := by
  unfold npFromBuffer
  rw [if_neg (by
    simp only [List.length_append, not_lt]
    have := tobytes_length ⟨d, pats⟩
    simp only at this
    omega)]
  unfold PArr.tobytes
  simp only []
  rw [show pats.length = (pats.map (patBytes d.ord d.width)).length by simp]
  rw [chunkEv_blocks _ rest (by
    intro b hb'
    obtain ⟨p, _, rfl⟩ := List.mem_map.1 hb'
    exact patBytes_length _ _ _)]
  rw [List.map_map]
  congr 1
  apply List.map_congr_left
  intro p hp
  simp only [Function.comp_apply]
  rw [bytesPat_patBytes, Nat.mod_eq_of_lt (hb p hp)]

/-! ## Evaluating the decode pipeline -/

/-- Unfolding an `Except` bind whose first step is known to succeed. -/
theorem bindOk {α β : Type} {x : Except PyErr α} {f : α → Except PyErr β}
    {a : α} (h : x = .ok a) : x >>= f = f a := by
  rw [h]
  rfl

/-- Unfolding an `Except` bind whose first step is known to fail. -/
theorem bindErr {α β : Type} {x : Except PyErr α} {f : α → Except PyErr β}
    {e : PyErr} (h : x = .error e) : x >>= f = .error e := by
  rw [h]
  rfl

/-- Inversion for a successful `Except` bind. -/
theorem bindOk_iff {α β : Type} {x : Except PyErr α} {f : α → Except PyErr β}
    {b : β} : x >>= f = .ok b ↔ ∃ a, x = .ok a ∧ f a = .ok b := by
  cases x <;> simp [Bind.bind, Except.bind]


theorem intDec_ofNat (m : Nat) : intDec (m : Int) = decStr m := by
  simp [intDec]

theorem npDtypeOfString_eval (d : Dtype)
    (hvalid : dtypeWidthOk d.kind d.width = true) :
    npDtypeOfString (ordChar d.ord :: kindChar d.kind :: decStr d.width) =
      .ok d := by
  rcases d with ⟨o, k, w⟩
  cases o <;> cases k <;>
    simp [npDtypeOfString, ordChar, kindChar, digitsVal?_decStr, hvalid]

theorem get_numpy_fmt_eval {h : Header} {o k : PyVal} {w : Int}
    {oc kc : List Nat}
    (ho : hFind h (strB "BYT_OR") = .ok o)
    (hoc : fmt_isf_to_numpy o = .ok oc)
    (hk : hFind h (strB "BN_FMT") = .ok k)
    (hkc : fmt_isf_to_numpy k = .ok kc)
    (hw : hFind h (strB "BYT_NR") = .ok (.int w)) :
    get_numpy_fmt h = .ok (oc ++ kc ++ intDec w) := by
  unfold get_numpy_fmt
  rw [bindOk ho, bindOk hoc, bindOk hk, bindOk hkc, bindOk hw]
  rfl

theorem resDtypeF_idem (d : Dtype) : resDtypeF (resDtypeF d) = resDtypeF d := by
  rcases d with ⟨o, k, w⟩
  cases k <;> rfl

theorem arrOp_float_eval (op : NpOp) (a : Arr) (q : ℚ) :
    arrOp op a (.float q) =
      .ok ⟨resDtypeF a.dtype, a.vals.map (fun v => npApply op v q)⟩ := by
  rcases a with ⟨⟨o, k, w⟩, vals⟩
  cases k <;> rfl

theorem pyFloorDiv_int {x y : Int} (hy : ¬(y = 0)) :
    pyFloorDiv (.int x) (.int y) = .ok (.int (Int.fdiv x y)) := by
  simp [pyFloorDiv, hy]

theorem shapeOf_int {z : Int} (hz : 0 ≤ z) :
    shapeOf (.int z) = .ok z.toNat := by
  simp [shapeOf]
  omega

theorem npFromBuffer_le {d : Dtype} {cnt : Nat} {raw : List Nat}
    (hraw : cnt * d.width ≤ raw.length) :
    npFromBuffer d cnt raw =
      .ok ((chunkEv cnt d.width raw).map (fun c => dval d (bytesPat d.ord c))) := by
  unfold npFromBuffer
  rw [if_neg (by omega)]

/-- Full evaluation of `convert_data_y` on a header with float
calibration constants and a large-enough buffer. -/
theorem convert_data_y_eval
    {h : Header} {ptv o k : PyVal} {pm w N : Int}
    {oc kc : List Nat} {yo ym yz : ℚ} {d : Dtype} {raw : List Nat}
    (hpt : hFind h (strB "PT_FMT") = .ok ptv)
    (hpm : (if ptv = .str (strB "ENV") ∨ ptv = .str (strB "XY")
      then (2 : Int) else 1) = pm)
    (ho : hFind h (strB "BYT_OR") = .ok o)
    (hoc : fmt_isf_to_numpy o = .ok oc)
    (hk : hFind h (strB "BN_FMT") = .ok k)
    (hkc : fmt_isf_to_numpy k = .ok kc)
    (hw : hFind h (strB "BYT_NR") = .ok (.int w))
    (hN : hFind h (strB "NR_PT") = .ok (.int N))
    (hpm0 : ¬(pm = 0)) (hdiv : 0 ≤ N.fdiv pm)
    (hd : npDtypeOfString (oc ++ kc ++ intDec w) = .ok d)
    (hyo : hFind h (strB "YOFF") = .ok (.float yo))
    (hym : hFind h (strB "YMULT") = .ok (.float ym))
    (hyz : hFind h (strB "YZERO") = .ok (.float yz))
    (hraw : (N.fdiv pm).toNat * d.width ≤ raw.length) :
    convert_data_y raw h = .ok
      ⟨resDtypeF d,
        ((chunkEv (N.fdiv pm).toNat d.width raw).map
          (fun c => dval d (bytesPat d.ord c))).map
          (fun v => (v - yo) * ym + yz)⟩ := by
  unfold convert_data_y
  rw [bindOk hpt]
  simp only [hpm]
  rw [bindOk (get_numpy_fmt_eval ho hoc hk hkc hw), bindOk hN,
    bindOk (pyFloorDiv_int hpm0), bindOk (shapeOf_int hdiv), bindOk hd,
    bindOk (npFromBuffer_le hraw), bindOk hyo,
    bindOk (arrOp_float_eval .sub _ yo), bindOk hym,
    bindOk (arrOp_float_eval .mul _ ym), bindOk hyz,
    arrOp_float_eval .add _ yz]
  simp only [resDtypeF_idem, List.map_map]
  rfl

/-- Full evaluation of `convert_data_x` (XY layout only). -/
theorem convert_data_x_eval
    {h : Header} {o k : PyVal} {w N : Int}
    {oc kc : List Nat} {po xi xz : ℚ} {d : Dtype} {raw : List Nat}
    (hpt : hFind h (strB "PT_FMT") = .ok (.str (strB "XY")))
    (ho : hFind h (strB "BYT_OR") = .ok o)
    (hoc : fmt_isf_to_numpy o = .ok oc)
    (hk : hFind h (strB "BN_FMT") = .ok k)
    (hkc : fmt_isf_to_numpy k = .ok kc)
    (hw : hFind h (strB "BYT_NR") = .ok (.int w))
    (hN : hFind h (strB "NR_PT") = .ok (.int N))
    (hdiv : 0 ≤ N.fdiv 2)
    (hd : npDtypeOfString (oc ++ kc ++ intDec w) = .ok d)
    (hpo : hFind h (strB "PT_OFF") = .ok (.float po))
    (hxi : hFind h (strB "XINCR") = .ok (.float xi))
    (hxz : hFind h (strB "XZERO") = .ok (.float xz))
    (hraw : (N.fdiv 2).toNat * d.width ≤ raw.length) :
    convert_data_x raw h = .ok
      ⟨resDtypeF d,
        ((chunkEv (N.fdiv 2).toNat d.width raw).map
          (fun c => dval d (bytesPat d.ord c))).map
          (fun v => (v - po) * xi + xz)⟩ := by
  unfold convert_data_x
  rw [bindOk hpt]
  rw [if_neg (by decide)]
  rw [bindOk (rfl : (pure () : Except PyErr Unit) = .ok ())]
  rw [bindOk (get_numpy_fmt_eval ho hoc hk hkc hw), bindOk hN,
    bindOk (pyFloorDiv_int (by decide)), bindOk (shapeOf_int hdiv), bindOk hd,
    bindOk (npFromBuffer_le hraw), bindOk hpo,
    bindOk (arrOp_float_eval .sub _ po), bindOk hxi,
    bindOk (arrOp_float_eval .mul _ xi), bindOk hxz,
    arrOp_float_eval .add _ xz]
  simp only [resDtypeF_idem, List.map_map]
  rfl

theorem read_data_from_file_ok {file : List Nat} {start size : Int}
    (h0 : 0 ≤ start) (hsz : 0 ≤ size)
    (hav : start.toNat + size.toNat ≤ file.length) :
    read_data_from_file file start size =
      .ok ((file.drop start.toNat).take size.toNat) := by
  unfold read_data_from_file
  rw [if_neg (by omega)]
  simp only [if_neg (show ¬(size < 0) by omega)]
  rw [if_pos (by
    simp only [List.length_take, List.length_drop]
    omega)]

theorem np_linspace_eval {s e : ℚ} {N : Int} {dstr : List Nat} {d : Dtype}
    (hd : npDtypeOfString dstr = .ok d) (hN0 : 0 ≤ N) :
    np_linspace (.float s) (.float e) (.int N) dstr =
      .ok ⟨d, (linspaceQ s e N.toNat).map (castVal d)⟩ := by
  unfold np_linspace
  rw [bindOk hd]
  rw [bindOk (show pyToQ (.float s) = .ok s from rfl)]
  rw [bindOk (show pyToQ (.float e) = .ok e from rfl)]
  rw [bindOk (show linspaceNum (.int N) = .ok N.toNat by
    simp [linspaceNum]
    omega)]
  rfl

/-- Evaluating the `Y` branch of `read_isf` down to the payload read
(left as a bind, so a truncated read and a successful decode are both
reachable from here). -/
theorem decodeStage_y {file : List Nat} {h : Header} {ds : Nat} {sz : Int}
    {warns : List (PyVal × Int)} {encv o k : PyVal} {oc kc : List Nat}
    {w N : Int} {xz xi : ℚ}
    (hpt : hFind h (strB "PT_FMT") = .ok (.str (strB "Y")))
    (henc : hFind h (strB "ENCDG") = .ok encv)
    (hencv : encv = .str (strB "BIN") ∨ encv = .str (strB "BINARY"))
    (ho : hFind h (strB "BYT_OR") = .ok o)
    (hoc : fmt_isf_to_numpy o = .ok oc)
    (hk : hFind h (strB "BN_FMT") = .ok k)
    (hkc : fmt_isf_to_numpy k = .ok kc)
    (hw : hFind h (strB "BYT_NR") = .ok (.int w))
    (hxz : hFind h (strB "XZERO") = .ok (.float xz))
    (hxi : hFind h (strB "XINCR") = .ok (.float xi))
    (hN : hFind h (strB "NR_PT") = .ok (.int N)) (hN0 : 0 ≤ N)
    {d : Dtype} (hd : npDtypeOfString (oc ++ kc ++ intDec w) = .ok d) :
    decodeStage file (h, ds, sz, warns) =
      read_data_from_file file ds sz >>= fun raw =>
        convert_data_y raw (hInsert h (strB "XSTOP") (.float (xz + xi * N)))
          >>= fun y =>
        .ok (⟨d, (linspaceQ xz (xz + xi * N - xi) N.toNat).map (castVal d)⟩,
          y, hInsert h (strB "XSTOP") (.float (xz + xi * N)), warns) := by
  unfold decodeStage
  simp only []
  rw [bindOk hpt]
  rw [if_neg (by decide), bindOk (rfl : (pure () : Except PyErr Unit) = .ok ())]
  rw [bindOk henc]
  rw [if_neg (by rcases hencv with rfl | rfl <;> decide),
    bindOk (rfl : (pure () : Except PyErr Unit) = .ok ())]
  rw [bindOk (get_numpy_fmt_eval ho hoc hk hkc hw)]
  rw [if_pos rfl]
  rw [bindOk hxz, bindOk hxi, bindOk hN]
  rw [bindOk (show pyMul (.float xi) (.int N) = .ok (.float (xi * N)) from rfl)]
  rw [bindOk (show pyAdd (.float xz) (.float (xi * N)) =
    .ok (.float (xz + xi * N)) from rfl)]
  rw [bindOk (show pySub (.float (xz + xi * N)) (.float xi) =
    .ok (.float (xz + xi * N - xi)) from rfl)]
  rw [bindOk (np_linspace_eval hd hN0)]
  rfl

/-- Evaluating the `XY` branch of `read_isf` down to the two payload
reads. -/
theorem decodeStage_xy {file : List Nat} {h : Header} {ds : Nat} {sz : Int}
    {warns : List (PyVal × Int)} {encv o k : PyVal} {oc kc : List Nat}
    {w : Int}
    (hpt : hFind h (strB "PT_FMT") = .ok (.str (strB "XY")))
    (henc : hFind h (strB "ENCDG") = .ok encv)
    (hencv : encv = .str (strB "BIN") ∨ encv = .str (strB "BINARY"))
    (ho : hFind h (strB "BYT_OR") = .ok o)
    (hoc : fmt_isf_to_numpy o = .ok oc)
    (hk : hFind h (strB "BN_FMT") = .ok k)
    (hkc : fmt_isf_to_numpy k = .ok kc)
    (hw : hFind h (strB "BYT_NR") = .ok (.int w)) :
    decodeStage file (h, ds, sz, warns) =
      read_data_from_file file ds (Int.fdiv sz 2) >>= fun raw_x =>
        convert_data_x raw_x h >>= fun x =>
      read_data_from_file file (ds + Int.fdiv sz 2) (Int.fdiv sz 2) >>=
        fun raw_y =>
        convert_data_y raw_y h >>= fun y =>
        .ok (x, y, h, warns) := by
  unfold decodeStage
  simp only []
  rw [bindOk hpt]
  rw [if_neg (by decide), bindOk (rfl : (pure () : Except PyErr Unit) = .ok ())]
  rw [bindOk henc]
  rw [if_neg (by rcases hencv with rfl | rfl <;> decide),
    bindOk (rfl : (pure () : Except PyErr Unit) = .ok ())]
  rw [bindOk (get_numpy_fmt_eval ho hoc hk hkc hw)]
  rw [if_neg (by decide), if_neg (by decide)]
  rfl

theorem hFind_insert_ne {h : Header} {kp k : List Nat} {v : PyVal}
    (hne : ¬(kp = k)) : hFind (hInsert h kp v) k = hFind h k := by
  unfold hFind hInsert
  rw [List.find?_cons_of_neg]
  simp [hne]

theorem chunkEv_length : ∀ (c w : Nat) (bs : List Nat),
    (chunkEv c w bs).length = c := by
  intro c
  induction c with
  | zero => intro w bs; rfl
  | succ c ih =>
    intro w bs
    simp [chunkEv, ih]

theorem linspaceQ_length (s e : ℚ) (n : Nat) : (linspaceQ s e n).length = n := by
  match n with
  | 0 => rfl
  | 1 => rfl
  | m + 2 =>
    unfold linspaceQ
    rw [List.length_map, List.length_range]

/-- `convert_data_y` raises the missing-`YMULT` lookup error after the
earlier steps succeed. -/
theorem convert_data_y_err_ymult
    {h : Header} {ptv o k : PyVal} {pm w N : Int}
    {oc kc : List Nat} {yo : ℚ} {d : Dtype} {raw : List Nat} {e : PyErr}
    (hpt : hFind h (strB "PT_FMT") = .ok ptv)
    (hpm : (if ptv = .str (strB "ENV") ∨ ptv = .str (strB "XY")
      then (2 : Int) else 1) = pm)
    (ho : hFind h (strB "BYT_OR") = .ok o)
    (hoc : fmt_isf_to_numpy o = .ok oc)
    (hk : hFind h (strB "BN_FMT") = .ok k)
    (hkc : fmt_isf_to_numpy k = .ok kc)
    (hw : hFind h (strB "BYT_NR") = .ok (.int w))
    (hN : hFind h (strB "NR_PT") = .ok (.int N))
    (hpm0 : ¬(pm = 0)) (hdiv : 0 ≤ N.fdiv pm)
    (hd : npDtypeOfString (oc ++ kc ++ intDec w) = .ok d)
    (hyo : hFind h (strB "YOFF") = .ok (.float yo))
    (hym : hFind h (strB "YMULT") = .error e)
    (hraw : (N.fdiv pm).toNat * d.width ≤ raw.length) :
    convert_data_y raw h = .error e := by
  unfold convert_data_y
  rw [bindOk hpt]
  simp only [hpm]
  rw [bindOk (get_numpy_fmt_eval ho hoc hk hkc hw), bindOk hN,
    bindOk (pyFloorDiv_int hpm0), bindOk (shapeOf_int hdiv), bindOk hd,
    bindOk (npFromBuffer_le hraw), bindOk hyo,
    bindOk (arrOp_float_eval .sub _ yo), bindErr hym]

/-- The warning list `get_head` returns, given the two size fields. -/
theorem get_head_warns {raw : List Nat} {h : Header} {ds : Nat} {sz : Int}
    {warns : List (PyVal × Int)} {w N : Int}
    (hres : get_head raw = .ok (h, ds, sz, warns))
    (hw : hFind h (strB "BYT_NR") = .ok (.int w))
    (hN : hFind h (strB "NR_PT") = .ok (.int N)) :
    warns = if w * N = sz then [] else [(.int (w * N), sz)] := by
  unfold get_head at hres
  rw [bindOk_iff] at hres
  obtain ⟨⟨hd0, ds0, sz0⟩, hfold, hres⟩ := hres
  rw [bindOk_iff] at hres
  obtain ⟨bn, hbn, hres⟩ := hres
  rw [bindOk_iff] at hres
  obtain ⟨np', hnp, hres⟩ := hres
  rw [bindOk_iff] at hres
  obtain ⟨cs, hmul, hres⟩ := hres
  simp only [pure, Except.pure, Except.ok.injEq, Prod.mk.injEq] at hres
  obtain ⟨rfl, rfl, rfl, hwarn⟩ := hres
  rw [hbn] at hw
  rw [hnp] at hN
  cases hw
  cases hN
  simp only [pyMul, Except.ok.injEq] at hmul
  subst hmul
  rw [← hwarn]
  by_cases hc : w * N = sz0 <;> simp [pyEqVal, hc]

/-! ## Helper facts for the claims -/

/-- The fold of `get_head` never touches the payload bounds while no
match is named `CURVE`. -/
theorem foldlM_getHeadStep_no_curve :
    ∀ (ms : List HMatch) (st res : Header × Nat × Int),
      (∀ m ∈ ms, m.name ≠ strB "CURVE") →
      ms.foldlM getHeadStep st = .ok res → res.2 = st.2 := by
  intro ms
  induction ms with
  | nil =>
    intro st res _ h
    simp only [List.foldlM_nil] at h
    cases h
    rfl
  | cons m ms ih =>
    intro st res hname h
    rw [List.foldlM_cons] at h
    have hm : getHeadStep st m =
        .ok (hInsert st.1 m.name (coerceVal m.value), st.2.1, st.2.2) := by
      unfold getHeadStep
      rw [if_neg (hname m (List.mem_cons_self ..))]
    rw [bindOk hm] at h
    have := ih (hInsert st.1 m.name (coerceVal m.value), st.2.1, st.2.2) res
      (fun x hx => hname x (List.mem_cons_of_mem _ hx)) h
    simpa using this

/-! ## The XY encoder's header, rendered and parsed back -/

theorem ordTok_spec (o : ByteOrd) :
    ordTok o ≠ [] ∧ (∀ c ∈ ordTok o, isWordB c = true) ∧
    (∀ c ∈ ordTok o, isValueB c = true) ∧
    coerceVal (ordTok o) = .str (ordTok o) ∧
    fmt_isf_to_numpy (.str (ordTok o)) = .ok [ordChar o] ∧
    (ordTok o).length = 3 := by
  cases o <;>
    exact ⟨by decide, by decide, by decide, by with_unfolding_all decide,
      by decide, rfl⟩

theorem kindTok_spec (k : NumKind) :
    kindTok k ≠ [] ∧ (∀ c ∈ kindTok k, isWordB c = true) ∧
    (∀ c ∈ kindTok k, isValueB c = true) ∧
    coerceVal (kindTok k) = .str (kindTok k) ∧
    fmt_isf_to_numpy (.str (kindTok k)) = .ok [kindChar k] ∧
    (kindTok k).length = 2 := by
  cases k <;>
    exact ⟨by decide, by decide, by decide, by with_unfolding_all decide,
      by decide, rfl⟩

theorem get_isf_fmt_c1 (o : ByteOrd) (k : NumKind) {w : Nat}
    (hwv : w = 2 ∨ w = 4 ∨ w = 8) :
    get_isf_fmt ⟨o, k, w⟩ = .ok (.str (ordTok o), .str (kindTok k), w) := by
  rcases hwv with rfl | rfl | rfl <;> cases o <;> cases k <;> decide

theorem npDtype_c1 (o : ByteOrd) (k : NumKind) {w : Nat}
    (hwv : w = 2 ∨ w = 4 ∨ w = 8) :
    npDtypeOfString ([ordChar o] ++ [kindChar k] ++ intDec (w : Int)) =
      .ok ⟨o, k, w⟩ := by
  rcases hwv with rfl | rfl | rfl <;> cases o <;> cases k <;> decide

theorem coerceVal_decStr (m : Nat) :
    coerceVal (decStr m) = .int ((m : Nat) : Int) := by
  unfold coerceVal
  rw [pyParseInt_decStr]

theorem decStr_value {m : Nat} : ∀ c ∈ decStr m, isValueB c = true := by
  intro c hc
  have := decStr_digits c hc
  simp [isValueB]
  omega

theorem ok_bind {α β : Type} (a : α) (f : α → Except PyErr β) :
    ((Except.ok a : Except PyErr α) >>= f) = f a := rfl

/-- One `;NAME value;`-shaped step of the scan over the rendered
header, with the chunk nesting `List.append_assoc` produces. -/
theorem scan_chunk_seg (nm v R : List Nat) (pos : Nat)
    (hn : nm ≠ []) (hwd : ∀ c ∈ nm, isWordB c = true)
    (hv : ∀ c ∈ v, isValueB c = true) (hvn : v ≠ []) :
    scan ([59] ++ (nm ++ ([32] ++ (v ++ ([59] ++ R))))) pos 0 =
      { name := nm, value := v, vstart := pos + (2 + nm.length) } ::
        scan ([59] ++ R) (pos + (2 + nm.length + v.length)) 0 := by
  rw [show [59] ++ (nm ++ ([32] ++ (v ++ ([59] ++ R)))) =
    59 :: (nm ++ 32 :: (v ++ 59 :: R)) from rfl]
  rw [scan_seg (by decide) hn hwd (by decide) hv hvn
    (Or.inr ⟨59, R, rfl, by decide⟩)]
  rfl

/-- The first scan step: the `:WFMPRE:` prelude, then a `NAME value;`
segment using the second colon as its delimiter. -/
theorem scan_wfmpre_seg (nm v R : List Nat) (pos : Nat)
    (hn : nm ≠ []) (hwd : ∀ c ∈ nm, isWordB c = true)
    (hv : ∀ c ∈ v, isValueB c = true) (hvn : v ≠ []) :
    scan (strB ":WFMPRE:" ++ (nm ++ ([32] ++ (v ++ ([59] ++ R))))) pos 0 =
      { name := nm, value := v, vstart := pos + 7 + (2 + nm.length) } ::
        scan ([59] ++ R) (pos + 7 + (2 + nm.length + v.length)) 0 := by
  rw [show strB ":WFMPRE:" ++ (nm ++ ([32] ++ (v ++ ([59] ++ R)))) =
    58 :: (strB "WFMPRE" ++ 58 :: (nm ++ 32 :: (v ++ 59 :: R))) from rfl]
  rw [scan_wfmpre]
  rw [scan_seg (by decide) hn hwd (by decide) hv hvn
    (Or.inr ⟨59, R, rfl, by decide⟩)]
  rfl

/-- A `;:WFMPRE:NAME value;` step: the semicolon is skipped, the
prelude consumed, and the segment matched at the second colon. -/
theorem scan_semi_wfmpre_seg (nm v R : List Nat) (pos : Nat)
    (hn : nm ≠ []) (hwd : ∀ c ∈ nm, isWordB c = true)
    (hv : ∀ c ∈ v, isValueB c = true) (hvn : v ≠ []) :
    scan ([59] ++ (strB ":WFMPRE:" ++ (nm ++ ([32] ++ (v ++ ([59] ++ R))))))
        pos 0 =
      { name := nm, value := v, vstart := pos + 8 + (2 + nm.length) } ::
        scan ([59] ++ R) (pos + 8 + (2 + nm.length + v.length)) 0 := by
  rw [show [59] ++ (strB ":WFMPRE:" ++ (nm ++ ([32] ++ (v ++ ([59] ++ R))))) =
    59 :: 58 :: (strB "WFMPRE" ++ 58 :: (nm ++ 32 :: (v ++ 59 :: R)))
    from rfl]
  rw [scan_semi_nonword pos (by decide) (by decide)]
  rw [scan_wfmpre]
  rw [scan_seg (by decide) hn hwd (by decide) hv hvn
    (Or.inr ⟨59, R, rfl, by decide⟩)]
  rfl

/-- The final `;:CURVE #…` step: the semicolon is skipped and the
`CURVE` segment greedily captures the rest of the scanned window. -/
theorem scan_semi_curve (rest : List Nat) (pos : Nat)
    (hrest : ∀ c ∈ rest, isDelimB c = false) :
    scan ([59] ++ (strB ":CURVE #" ++ rest)) pos 0 =
      [{ name := strB "CURVE", value := (35 :: rest).takeWhile isValueB,
         vstart := pos + 1 + (2 + 5) }] := by
  rw [show [59] ++ (strB ":CURVE #" ++ rest) =
    59 :: 58 :: (strB "CURVE" ++ 32 :: (35 :: rest)) from rfl]
  rw [scan_semi_nonword pos (by decide) (by decide)]
  rw [scan_last (pos + 1) (by decide) (by decide) (by decide) (by decide)
    (by
      intro c hc
      rcases List.mem_cons.mp hc with rfl | hc
      · decide
      · exact hrest c hc)
    (by rw [List.takeWhile_cons_of_pos (by decide)]; simp)]
  rfl

theorem getHeadStep_ne (st : Header × Nat × Int) (m : HMatch)
    (hname : ¬(m.name = strB "CURVE")) :
    getHeadStep st m =
      .ok (hInsert st.1 m.name (coerceVal m.value), st.2.1, st.2.2) := by
  unfold getHeadStep
  rw [if_neg hname]

theorem getHeadStep_curve (st : Header × Nat × Int) (m : HMatch)
    {ds : Nat} {sz : Int} (hname : m.name = strB "CURVE")
    (hcp : curveParse m.value m.vstart = .ok (ds, sz)) :
    getHeadStep st m = .ok (st.1, ds, sz) := by
  unfold getHeadStep
  rw [if_pos hname, hcp]

theorem getHeadStep_ne' (st : Header × Nat × Int) (nm v : List Nat)
    (vp : Nat) (hname : ¬(nm = strB "CURVE")) :
    getHeadStep st ⟨nm, v, vp⟩ =
      .ok (hInsert st.1 nm (coerceVal v), st.2.1, st.2.2) :=
  getHeadStep_ne st ⟨nm, v, vp⟩ hname

theorem getHeadStep_curve' (st : Header × Nat × Int) (nm v : List Nat)
    (vp : Nat) {ds : Nat} {sz : Int} (hname : nm = strB "CURVE")
    (hcp : curveParse v vp = .ok (ds, sz)) :
    getHeadStep st ⟨nm, v, vp⟩ = .ok (st.1, ds, sz) :=
  getHeadStep_curve st ⟨nm, v, vp⟩ hname hcp

theorem hFind_cons_ne' (kx : List Nat) (vx : PyVal) (t : Header)
    (kk : List Nat) (hne : ¬(kx = kk)) :
    hFind ((kx, vx) :: t) kk = hFind t kk := by
  unfold hFind
  rw [List.find?_cons_of_neg]
  simp [hne]

theorem hFind_cons_self' (kx : List Nat) (vx : PyVal) (t : Header) :
    hFind ((kx, vx) :: t) kx = .ok vx := by
  unfold hFind
  rw [List.find?_cons_of_pos _ (by simp)]

/-- The `:CURVE` value parse on the rendered marker: the single
length-of-length digit, then the declared byte count. -/
theorem curveParse_c1 (m : Nat) (J vs : List Nat) (vstart : Nat)
    (hm : m ≤ 999999999)
    (hvs : vs = (35 :: (decStr (decStr m).length ++ (decStr m ++ J))).takeWhile
      isValueB) :
    curveParse vs vstart =
      .ok (vstart + 2 + (decStr m).length, (m : Int)) := by
  have hd9 : (decStr m).length ≤ 9 :=
    decStr_length_le (by omega) (by omega)
  have hiD : decStr (decStr m).length = [48 + (decStr m).length] :=
    decStr_single (by omega)
  have hvs' : vs = 35 :: (48 + (decStr m).length) ::
      (decStr m ++ J.takeWhile isValueB) := by
    rw [hvs, hiD]
    rw [List.takeWhile_cons_of_pos (by decide)]
    rw [show [48 + (decStr m).length] ++ (decStr m ++ J) =
      (48 + (decStr m).length) :: (decStr m ++ J) from rfl]
    rw [List.takeWhile_cons_of_pos (by
      simp [isValueB]
      omega)]
    rw [List.takeWhile_append_of_pos (fun c hc => decStr_value c hc)]
  rw [hvs']
  unfold curveParse
  simp only [List.drop_succ_cons, List.drop_zero, List.drop_one]
  rw [show decDigit? (48 + (decStr m).length) = some (decStr m).length by
    unfold decDigit?
    rw [if_pos ⟨by omega, by omega⟩]
    congr 1
    omega]
  simp only []
  rw [List.take_left' rfl]
  rw [pyParseInt_decStr]

/-- The rendered `1.000000e+00` and `0.000000e+00` fields parse back as
the floats `1` and `0`, and the fixed string fields stay strings. -/
theorem coerceVal_c1_facts :
    coerceVal (strB "1.000000e+00") = .float 1 ∧
    coerceVal (strB "0.000000e+00") = .float 0 ∧
    coerceVal (strB "BINARY") = .str (strB "BINARY") ∧
    coerceVal (strB "Python isf-converter-py XY-curve") =
      .str (strB "Python isf-converter-py XY-curve") ∧
    coerceVal (strB "XY") = .str (strB "XY") ∧
    coerceVal (strB "a.u.") = .str (strB "a.u.") ∧
    coerceVal (strB "TIME") = .str (strB "TIME") ∧
    coerceVal (strB "ANALOG") = .str (strB "ANALOG") := by
  refine ⟨?_, ?_, ?_, ?_, ?_, ?_, ?_, ?_⟩ <;> with_unfolding_all decide

/-- The rendering of the encoder's header dictionary. -/
theorem head_to_str_c1 (byTok bnTok : List Nat) (w n : Nat) :
    head_to_str (c1WriteHead byTok bnTok w n) =
      .ok (c1HeadStr byTok bnTok w n) := by
  have hcast2 : ((n : Int) * 2) = ((n * 2 : Nat) : Int) := by push_cast; ring
  have hcast8 : ((w : Int) * 8) = ((w * 8 : Nat) : Int) := by push_cast; ring
  have hcastm : ((n : Int) * 2 * (w : Int)) = ((n * 2 * w : Nat) : Int) := by
    push_cast
    ring
  unfold head_to_str
  rw [bindOk (show fmtPlainField (c1WriteHead byTok bnTok w n) "NR_PT" =
    .ok (strB "NR_PT" ++ [32] ++ decStr (n * 2) ++ [59]) from by
      calc fmtPlainField (c1WriteHead byTok bnTok w n) "NR_PT" =
          .ok (strB "NR_PT" ++ [32] ++ intDec ((n : Int) * 2) ++ [59]) := rfl
        _ = _ := by rw [hcast2, intDec_ofNat])]
  rw [bindOk (show fmtPlainField (c1WriteHead byTok bnTok w n) "BYT_NR" =
    .ok (strB "BYT_NR" ++ [32] ++ decStr w ++ [59]) from by
      calc fmtPlainField (c1WriteHead byTok bnTok w n) "BYT_NR" =
          .ok (strB "BYT_NR" ++ [32] ++ intDec (w : Int) ++ [59]) := rfl
        _ = _ := by rw [intDec_ofNat])]
  rw [bindOk (show fmtPlainField (c1WriteHead byTok bnTok w n) "BIT_NR" =
    .ok (strB "BIT_NR" ++ [32] ++ decStr (w * 8) ++ [59]) from by
      calc fmtPlainField (c1WriteHead byTok bnTok w n) "BIT_NR" =
          .ok (strB "BIT_NR" ++ [32] ++ intDec ((w : Int) * 8) ++ [59]) := rfl
        _ = _ := by rw [hcast8, intDec_ofNat])]
  rw [bindOk (show fmtPlainField (c1WriteHead byTok bnTok w n) "ENCDG" =
    .ok (strB "ENCDG" ++ [32] ++ strB "BINARY" ++ [59]) from rfl)]
  rw [bindOk (show fmtPlainField (c1WriteHead byTok bnTok w n) "BN_FMT" =
    .ok (strB "BN_FMT" ++ [32] ++ bnTok ++ [59]) from rfl)]
  rw [bindOk (show fmtPlainField (c1WriteHead byTok bnTok w n) "BYT_OR" =
    .ok (strB "BYT_OR" ++ [32] ++ byTok ++ [59]) from rfl)]
  rw [bindOk (show fmtPlainField (c1WriteHead byTok bnTok w n) "WFID" =
    .ok (strB "WFID" ++ [32] ++
      strB "Python isf-converter-py XY-curve" ++ [59]) from rfl)]
  rw [bindOk (show fmtPlainField (c1WriteHead byTok bnTok w n) "NR_PT" =
    .ok (strB "NR_PT" ++ [32] ++ decStr (n * 2) ++ [59]) from by
      calc fmtPlainField (c1WriteHead byTok bnTok w n) "NR_PT" =
          .ok (strB "NR_PT" ++ [32] ++ intDec ((n : Int) * 2) ++ [59]) := rfl
        _ = _ := by rw [hcast2, intDec_ofNat])]
  rw [bindOk (show fmtPlainField (c1WriteHead byTok bnTok w n) "PT_FMT" =
    .ok (strB "PT_FMT" ++ [32] ++ strB "XY" ++ [59]) from rfl)]
  rw [bindOk (show fmtPlainField (c1WriteHead byTok bnTok w n) "XUNIT" =
    .ok (strB "XUNIT" ++ [32] ++ strB "a.u." ++ [59]) from rfl)]
  rw [bindOk (show fmtEField (c1WriteHead byTok bnTok w n) "XINCR" =
    .ok (strB "XINCR" ++ [32] ++ strB "1.000000e+00" ++ [59]) from by
      with_unfolding_all rfl)]
  rw [bindOk (show fmtEField (c1WriteHead byTok bnTok w n) "XZERO" =
    .ok (strB "XZERO" ++ [32] ++ strB "0.000000e+00" ++ [59]) from by
      with_unfolding_all rfl)]
  rw [bindOk (show fmtEField (c1WriteHead byTok bnTok w n) "PT_OFF" =
    .ok (strB "PT_OFF" ++ [32] ++ strB "0.000000e+00" ++ [59]) from by
      with_unfolding_all rfl)]
  rw [bindOk (show fmtPlainField (c1WriteHead byTok bnTok w n) "YUNIT" =
    .ok (strB "YUNIT" ++ [32] ++ strB "a.u." ++ [59]) from rfl)]
  rw [bindOk (show fmtEField (c1WriteHead byTok bnTok w n) "YMULT" =
    .ok (strB "YMULT" ++ [32] ++ strB "1.000000e+00" ++ [59]) from by
      with_unfolding_all rfl)]
  rw [bindOk (show fmtEField (c1WriteHead byTok bnTok w n) "YOFF" =
    .ok (strB "YOFF" ++ [32] ++ strB "0.000000e+00" ++ [59]) from by
      with_unfolding_all rfl)]
  rw [bindOk (show fmtEField (c1WriteHead byTok bnTok w n) "YZERO" =
    .ok (strB "YZERO" ++ [32] ++ strB "0.000000e+00" ++ [59]) from by
      with_unfolding_all rfl)]
  rw [bindOk (show fmtEField (c1WriteHead byTok bnTok w n) "VSCALE" =
    .ok (strB "VSCALE" ++ [32] ++ strB "1.000000e+00" ++ [59]) from by
      with_unfolding_all rfl)]
  rw [bindOk (show fmtEField (c1WriteHead byTok bnTok w n) "HSCALE" =
    .ok (strB "HSCALE" ++ [32] ++ strB "1.000000e+00" ++ [59]) from by
      with_unfolding_all rfl)]
  rw [bindOk (show fmtEField (c1WriteHead byTok bnTok w n) "VPOS" =
    .ok (strB "VPOS" ++ [32] ++ strB "0.000000e+00" ++ [59]) from by
      with_unfolding_all rfl)]
  rw [bindOk (show fmtEField (c1WriteHead byTok bnTok w n) "VOFFSET" =
    .ok (strB "VOFFSET" ++ [32] ++ strB "0.000000e+00" ++ [59]) from by
      with_unfolding_all rfl)]
  rw [bindOk (show fmtEField (c1WriteHead byTok bnTok w n) "HDELAY" =
    .ok (strB "HDELAY" ++ [32] ++ strB "0.000000e+00" ++ [59]) from by
      with_unfolding_all rfl)]
  rw [bindOk (show fmtPlainField (c1WriteHead byTok bnTok w n) "DOMAIN" =
    .ok (strB "DOMAIN" ++ [32] ++ strB "TIME" ++ [59]) from rfl)]
  rw [bindOk (show fmtPlainField (c1WriteHead byTok bnTok w n) "WFMTYPE" =
    .ok (strB "WFMTYPE" ++ [32] ++ strB "ANALOG" ++ [59]) from rfl)]
  rw [bindOk (show fmtEField (c1WriteHead byTok bnTok w n) "CENTERFREQUENCY" =
    .ok (strB "CENTERFREQUENCY" ++ [32] ++ strB "0.000000e+00" ++ [59]) from by
      with_unfolding_all rfl)]
  rw [bindOk (show fmtEField (c1WriteHead byTok bnTok w n) "SPAN" =
    .ok (strB "SPAN" ++ [32] ++ strB "0.000000e+00" ++ [59]) from by
      with_unfolding_all rfl)]
  rw [bindOk (show fmtEField (c1WriteHead byTok bnTok w n) "REFLEVEL" =
    .ok (strB "REFLEVEL" ++ [32] ++ strB "0.000000e+00" ++ [59]) from by
      with_unfolding_all rfl)]
  rw [bindOk (show hFind (c1WriteHead byTok bnTok w n) (strB "NR_PT") =
    .ok (.int ((n : Int) * 2)) from rfl)]
  rw [bindOk (show hFind (c1WriteHead byTok bnTok w n) (strB "BYT_NR") =
    .ok (.int (w : Int)) from rfl)]
  rw [bindOk (show pyMul (.int ((n : Int) * 2)) (.int (w : Int)) =
    .ok (.int ((n : Int) * 2 * (w : Int))) from rfl)]
  simp only [pyStr, hcastm, intDec_ofNat]
  unfold c1HeadStr
  simp only [List.append_assoc]
  rfl

/-- The encoder's output file, in closed form. -/
theorem c1_write_eval (X Y : PArr)
    (hlen : X.pats.length = Y.pats.length) (hdt : X.dtype = Y.dtype)
    (hwv : Y.dtype.width = 2 ∨ Y.dtype.width = 4 ∨ Y.dtype.width = 8) :
    write_isf_xy X Y = .ok (c1File X Y) := by
  have hgif : get_isf_fmt Y.dtype =
      .ok (.str (ordTok Y.dtype.ord), .str (kindTok Y.dtype.kind),
        Y.dtype.width) := by
    rcases hY : Y.dtype with ⟨o, k, w⟩
    rw [hY] at hwv
    exact get_isf_fmt_c1 o k hwv
  unfold write_isf_xy
  rw [if_neg (show ¬(X.pats.length ≠ Y.pats.length) from fun h => h hlen),
    bindOk (rfl : (pure () : Except PyErr Unit) = .ok ())]
  rw [if_neg (show ¬(X.dtype ≠ Y.dtype) from fun h => h hdt),
    bindOk (rfl : (pure () : Except PyErr Unit) = .ok ())]
  rw [bindOk hgif]
  show head_to_str (c1WriteHead (ordTok Y.dtype.ord) (kindTok Y.dtype.kind)
      Y.dtype.width Y.pats.length) >>=
    (fun hs => .ok (hs ++ X.tobytes ++ Y.tobytes)) = .ok (c1File X Y)
  rw [bindOk (head_to_str_c1 (ordTok Y.dtype.ord) (kindTok Y.dtype.kind)
    Y.dtype.width Y.pats.length)]
  rfl

theorem pure_bind' {α β : Type} (a : α) (f : α → Except PyErr β) :
    ((pure a : Except PyErr α) >>= f) = f a := rfl

/-- Parsing the rendered header back: the scan finds exactly the 27
serialized fields followed by the `CURVE` marker, the fold rebuilds the
dictionary, the data offset is the rendered header's length, the
declared size is `NR_PT * BYT_NR`, and the integrity check is clean. -/
theorem get_head_c1 (o : ByteOrd) (k : NumKind) (w n : Nat) (J : List Nat)
    (hJ : ∀ c ∈ J, isDelimB c = false)
    (hsz : n * 2 * w ≤ 999999999) :
    get_head (c1HeadStr (ordTok o) (kindTok k) w n ++ J) =
      .ok (c1FullHead (ordTok o) (kindTok k) w n,
        (c1HeadStr (ordTok o) (kindTok k) w n).length,
        ((n * 2 * w : Nat) : Int), []) := by
  obtain ⟨hbne, hbw, hbv, hbc, hbf, hblen⟩ := ordTok_spec o
  obtain ⟨hkne, hkw, hkv, hkc, hkf, hklen⟩ := kindTok_spec k
  obtain ⟨ce1, ce0, cbin, cwfid, cxy, cau, ctime, canalog⟩ := coerceVal_c1_facts
  unfold get_head c1HeadStr
  simp only [List.append_assoc]
  rw [scan_wfmpre_seg _ _ _ _ (by decide) (by decide) decStr_value
    decStr_ne_nil]
  rw [scan_semi_wfmpre_seg _ _ _ _ (by decide) (by decide) decStr_value
    decStr_ne_nil]
  rw [scan_chunk_seg _ _ _ _ (by decide) (by decide) decStr_value
    decStr_ne_nil]
  rw [scan_chunk_seg _ _ _ _ (by decide) (by decide) (by decide) (by decide)]
  rw [scan_chunk_seg _ _ _ _ (by decide) (by decide) hkv hkne]
  rw [scan_chunk_seg _ _ _ _ (by decide) (by decide) hbv hbne]
  rw [scan_chunk_seg _ _ _ _ (by decide) (by decide) (by decide) (by decide)]
  rw [scan_chunk_seg _ _ _ _ (by decide) (by decide) decStr_value
    decStr_ne_nil]
  iterate 19
    rw [scan_chunk_seg _ _ _ _ (by decide) (by decide) (by decide)
      (by decide)]
  rw [scan_semi_curve _ _ (by
    intro c hc
    rcases List.mem_append.mp hc with h | h
    · have := decStr_digits c h
      simp [isDelimB]
      omega
    · rcases List.mem_append.mp h with h2 | h2
      · have := decStr_digits c h2
        simp [isDelimB]
        omega
      · exact hJ c h2)]
  simp only [List.foldlM_cons, List.foldlM_nil]
  iterate 27 (rw [bindOk (getHeadStep_ne' _ _ _ _ (by decide))]; beta_reduce)
  rw [bindOk (getHeadStep_curve' _ _ _ _ rfl
    (curveParse_c1 (n * 2 * w) J _ _ hsz rfl))]
  rw [pure_bind']
  dsimp only
  simp only [hInsert]
  simp only [coerceVal_decStr, hbc, hkc, ce1, ce0, cbin, cwfid, cxy, cau,
    ctime, canalog]
  iterate 25 rw [hFind_cons_ne' _ _ _ _ (by decide)]
  rw [hFind_cons_self', ok_bind]
  iterate 19 rw [hFind_cons_ne' _ _ _ _ (by decide)]
  rw [hFind_cons_self', ok_bind]
  rw [show pyMul (.int ((w : Nat) : Int)) (.int ((n * 2 : Nat) : Int)) =
    .ok (.int (((w : Nat) : Int) * ((n * 2 : Nat) : Int))) from rfl, ok_bind]
  rw [show pyEqVal (.int (((w : Nat) : Int) * ((n * 2 : Nat) : Int)))
      (.int ((n * 2 * w : Nat) : Int)) = true by
    simp only [pyEqVal, beq_iff_eq]
    push_cast
    ring]
  rw [if_pos rfl]
  simp only [pure, Except.pure, Except.ok.injEq, Prod.mk.injEq]
  refine ⟨rfl, ?_, trivial⟩
  have hL9 : (decStr (n * 2 * w)).length ≤ 9 :=
    decStr_length_le (by omega) (by omega)
  have hiD : (decStr (decStr (n * 2 * w)).length).length = 1 := by
    rw [decStr_single (by omega)]
    rfl
  have e1 : (strB ":WFMPRE:").length = 8 := rfl
  have e2 : (strB ":CURVE #").length = 8 := rfl
  simp only [List.length_append, List.length_cons, List.length_nil]
  simp only [e1, e2, hiD, hblen, hklen]
  omega

/-- Chunking an array's serialized bytes recovers the per-element byte
blocks. -/
theorem chunkEv_tobytes (d : Dtype) (ps : List Nat) :
    chunkEv ps.length d.width (PArr.tobytes ⟨d, ps⟩) =
      ps.map (patBytes d.ord d.width) := by
  rw [show PArr.tobytes ⟨d, ps⟩ =
    (ps.map (patBytes d.ord d.width)).flatten ++ [] by
      rw [List.append_nil]
      rfl]
  rw [show ps.length = (ps.map (patBytes d.ord d.width)).length by
      rw [List.length_map]]
  exact chunkEv_blocks _ _ (fun b hb => by
    obtain ⟨p, hp, rfl⟩ := List.mem_map.mp hb
    exact patBytes_length _ _ _)

/-- Reading each element's block back under the same byte order yields
the original numeric values. -/
theorem decode_values (d : Dtype) (ps : List Nat)
    (hb : ∀ p ∈ ps, p < 256 ^ d.width) :
    (ps.map (patBytes d.ord d.width)).map
      (fun c => dval d (bytesPat d.ord c)) = ps.map (dval d) := by
  rw [List.map_map]
  apply List.map_congr_left
  intro p hp
  simp only [Function.comp]
  rw [bytesPat_patBytes, Nat.mod_eq_of_lt (hb p hp)]

/-- The lookups the decoder performs on the parsed header of an
encoded XY file. -/
theorem c1FullHead_finds (byTok bnTok : List Nat) (w n : Nat) :
    hFind (c1FullHead byTok bnTok w n) (strB "PT_FMT") =
      .ok (.str (strB "XY")) ∧
    hFind (c1FullHead byTok bnTok w n) (strB "ENCDG") =
      .ok (.str (strB "BINARY")) ∧
    hFind (c1FullHead byTok bnTok w n) (strB "BYT_OR") = .ok (.str byTok) ∧
    hFind (c1FullHead byTok bnTok w n) (strB "BN_FMT") = .ok (.str bnTok) ∧
    hFind (c1FullHead byTok bnTok w n) (strB "BYT_NR") =
      .ok (.int ((w : Nat) : Int)) ∧
    hFind (c1FullHead byTok bnTok w n) (strB "NR_PT") =
      .ok (.int ((n * 2 : Nat) : Int)) ∧
    hFind (c1FullHead byTok bnTok w n) (strB "PT_OFF") = .ok (.float 0) ∧
    hFind (c1FullHead byTok bnTok w n) (strB "XINCR") = .ok (.float 1) ∧
    hFind (c1FullHead byTok bnTok w n) (strB "XZERO") = .ok (.float 0) ∧
    hFind (c1FullHead byTok bnTok w n) (strB "YOFF") = .ok (.float 0) ∧
    hFind (c1FullHead byTok bnTok w n) (strB "YMULT") = .ok (.float 1) ∧
    hFind (c1FullHead byTok bnTok w n) (strB "YZERO") = .ok (.float 0) :=
  ⟨rfl, rfl, rfl, rfl, rfl, rfl, rfl, rfl, rfl, rfl, rfl, rfl⟩

set_option maxHeartbeats 1000000 in
/-- Decoding the encoder's output file: the XY layout is detected, both
halves of the payload are read back, and the calibrated arrays carry
exactly the values of the arrays handed to the encoder. -/
theorem c1_read_eval (X Y : PArr)
    (hlen : X.pats.length = Y.pats.length)
    (hdt : X.dtype = Y.dtype)
    (hwv : Y.dtype.width = 2 ∨ Y.dtype.width = 4 ∨ Y.dtype.width = 8)
    (hXb : ∀ p ∈ X.pats, p < 256 ^ Y.dtype.width)
    (hYb : ∀ p ∈ Y.pats, p < 256 ^ Y.dtype.width)
    (hpay : ∀ c ∈ X.tobytes ++ Y.tobytes, isDelimB c = false)
    (hsz : Y.pats.length * 2 * Y.dtype.width ≤ 999999999) :
    read_isf (c1File X Y) =
      .ok (⟨resDtypeF Y.dtype, X.values⟩, ⟨resDtypeF Y.dtype, Y.values⟩,
        (c1FullHead (ordTok Y.dtype.ord) (kindTok Y.dtype.kind) Y.dtype.width Y.pats.length), []) := by
  obtain ⟨hbne, hbw, hbv, hbc, hbf, hblen⟩ := ordTok_spec Y.dtype.ord
  obtain ⟨hkne, hkw, hkv, hkc, hkf, hklen⟩ := kindTok_spec Y.dtype.kind
  obtain ⟨fpt, fenc, fbo, fbn, fbnr, fnp, fpo, fxi, fxz, fyo, fym, fyz⟩ :=
    c1FullHead_finds (ordTok Y.dtype.ord) (kindTok Y.dtype.kind)
      Y.dtype.width Y.pats.length
  have hw2 : 2 ≤ Y.dtype.width := by rcases hwv with h | h | h <;> omega
  have hw8 : Y.dtype.width ≤ 8 := by rcases hwv with h | h | h <;> omega
  have hn9 : Y.pats.length * 2 ≤ 999999999 := by
    rcases hwv with h | h | h <;> (rw [h] at hsz; omega)
  have hXlen : X.tobytes.length = Y.pats.length * Y.dtype.width := by
    rw [tobytes_length, hlen, hdt]
  have hYlen : Y.tobytes.length = Y.pats.length * Y.dtype.width :=
    tobytes_length Y
  have hslen : (c1HeadStr (ordTok Y.dtype.ord) (kindTok Y.dtype.kind) Y.dtype.width Y.pats.length).length ≤ 1024 := by
    have d1 : (decStr (Y.pats.length * 2)).length ≤ 9 :=
      decStr_length_le (by omega) (by omega)
    have d2 : (decStr Y.dtype.width).length ≤ 9 :=
      decStr_length_le (by omega) (by omega)
    have d3 : (decStr (Y.dtype.width * 8)).length ≤ 9 :=
      decStr_length_le (by omega) (by omega)
    have d4 : (decStr (Y.pats.length * 2 * Y.dtype.width)).length ≤ 9 :=
      decStr_length_le (by omega) (by omega)
    have d5 :
        (decStr (decStr (Y.pats.length * 2 * Y.dtype.width)).length).length
          ≤ 9 := decStr_length_le (by omega) (by omega)
    simp only [c1HeadStr, List.length_append, List.length_cons,
      List.length_nil,
    show (strB ":WFMPRE:").length = 8 from rfl,
    show (strB "NR_PT").length = 5 from rfl,
    show (strB "BYT_NR").length = 6 from rfl,
    show (strB "BIT_NR").length = 6 from rfl,
    show (strB "ENCDG").length = 5 from rfl,
    show (strB "BINARY").length = 6 from rfl,
    show (strB "BN_FMT").length = 6 from rfl,
    show (strB "BYT_OR").length = 6 from rfl,
    show (strB "WFID").length = 4 from rfl,
    show (strB "Python isf-converter-py XY-curve").length = 32 from rfl,
    show (strB "PT_FMT").length = 6 from rfl,
    show (strB "XY").length = 2 from rfl,
    show (strB "XUNIT").length = 5 from rfl,
    show (strB "a.u.").length = 4 from rfl,
    show (strB "XINCR").length = 5 from rfl,
    show (strB "1.000000e+00").length = 12 from rfl,
    show (strB "XZERO").length = 5 from rfl,
    show (strB "0.000000e+00").length = 12 from rfl,
    show (strB "PT_OFF").length = 6 from rfl,
    show (strB "YUNIT").length = 5 from rfl,
    show (strB "YMULT").length = 5 from rfl,
    show (strB "YOFF").length = 4 from rfl,
    show (strB "YZERO").length = 5 from rfl,
    show (strB "VSCALE").length = 6 from rfl,
    show (strB "HSCALE").length = 6 from rfl,
    show (strB "VPOS").length = 4 from rfl,
    show (strB "VOFFSET").length = 7 from rfl,
    show (strB "HDELAY").length = 6 from rfl,
    show (strB "DOMAIN").length = 6 from rfl,
    show (strB "TIME").length = 4 from rfl,
    show (strB "WFMTYPE").length = 7 from rfl,
    show (strB "ANALOG").length = 6 from rfl,
    show (strB "CENTERFREQUENCY").length = 15 from rfl,
    show (strB "SPAN").length = 4 from rfl,
    show (strB "REFLEVEL").length = 8 from rfl,
    show (strB ":CURVE #").length = 8 from rfl]
    omega
  have hfdN : Int.fdiv ((Y.pats.length * 2 : Nat) : Int) 2 =
      ((Y.pats.length : Nat) : Int) := by
    rw [Int.fdiv_eq_ediv _ (by omega)]
    push_cast
    rw [show (Y.pats.length : Int) * 2 = 2 * (Y.pats.length : Int) by ring]
    exact Int.mul_ediv_cancel_left _ (by norm_num)
  have hfd : Int.fdiv ((Y.pats.length * 2 * Y.dtype.width : Nat) : Int) 2 =
      ((Y.pats.length * Y.dtype.width : Nat) : Int) := by
    rw [Int.fdiv_eq_ediv _ (by omega)]
    push_cast
    rw [show (Y.pats.length : Int) * 2 * (Y.dtype.width : Int) =
      2 * ((Y.pats.length : Int) * (Y.dtype.width : Int)) by ring]
    rw [Int.mul_ediv_cancel_left _ (by norm_num)]
  have hhs : headerStage (c1File X Y) =
      .ok ((c1FullHead (ordTok Y.dtype.ord) (kindTok Y.dtype.kind) Y.dtype.width Y.pats.length), (c1HeadStr (ordTok Y.dtype.ord) (kindTok Y.dtype.kind) Y.dtype.width Y.pats.length).length,
        ((Y.pats.length * 2 * Y.dtype.width : Nat) : Int), []) := by
    unfold headerStage
    simp only [c1File, List.append_assoc]
    rw [List.take_append_eq_append_take]
    rw [List.take_of_length_le hslen]
    exact get_head_c1 Y.dtype.ord Y.dtype.kind Y.dtype.width Y.pats.length _
      (fun c hc => hpay c (List.mem_of_mem_take hc)) hsz
  have hread1 : read_data_from_file (c1File X Y)
      (((c1HeadStr (ordTok Y.dtype.ord) (kindTok Y.dtype.kind) Y.dtype.width Y.pats.length).length : Nat) : Int)
      ((Y.pats.length * Y.dtype.width : Nat) : Int) = .ok X.tobytes := by
    rw [read_data_from_file_ok (by omega) (by omega) (by
      simp only [Int.toNat_ofNat, c1File, List.length_append]
      omega)]
    simp only [Int.toNat_ofNat]
    simp only [c1File, List.append_assoc]
    rw [List.drop_left]
    rw [List.take_left' hXlen]
  have hread2 : read_data_from_file (c1File X Y)
      ((((c1HeadStr (ordTok Y.dtype.ord) (kindTok Y.dtype.kind) Y.dtype.width Y.pats.length).length : Nat) : Int) +
        ((Y.pats.length * Y.dtype.width : Nat) : Int))
      ((Y.pats.length * Y.dtype.width : Nat) : Int) = .ok Y.tobytes := by
    rw [read_data_from_file_ok (by omega) (by omega) (by
      simp only [c1File, List.length_append]
      omega)]
    rw [show ((((c1HeadStr (ordTok Y.dtype.ord) (kindTok Y.dtype.kind) Y.dtype.width Y.pats.length).length : Nat) : Int) +
      ((Y.pats.length * Y.dtype.width : Nat) : Int)).toNat =
      (c1HeadStr (ordTok Y.dtype.ord) (kindTok Y.dtype.kind) Y.dtype.width Y.pats.length).length + Y.pats.length * Y.dtype.width by omega]
    simp only [Int.toNat_ofNat]
    rw [show c1File X Y = ((c1HeadStr (ordTok Y.dtype.ord) (kindTok Y.dtype.kind) Y.dtype.width Y.pats.length) ++ X.tobytes) ++ Y.tobytes by
      simp [c1File, List.append_assoc]]
    rw [show (c1HeadStr (ordTok Y.dtype.ord) (kindTok Y.dtype.kind) Y.dtype.width Y.pats.length).length + Y.pats.length * Y.dtype.width =
      ((c1HeadStr (ordTok Y.dtype.ord) (kindTok Y.dtype.kind) Y.dtype.width Y.pats.length) ++ X.tobytes).length by
        simp only [List.length_append, hXlen]]
    rw [List.drop_left]
    rw [show Y.pats.length * Y.dtype.width = Y.tobytes.length from hYlen.symm]
    rw [List.take_length]
  have hconvx : convert_data_x X.tobytes (c1FullHead (ordTok Y.dtype.ord) (kindTok Y.dtype.kind) Y.dtype.width Y.pats.length) =
      .ok ⟨resDtypeF Y.dtype, X.values⟩ := by
    rw [convert_data_x_eval fpt fbo hbf fbn hkf fbnr fnp
      (by rw [hfdN]; omega)
      (npDtype_c1 Y.dtype.ord Y.dtype.kind hwv) fpo fxi fxz
      (by
        rw [hfdN]
        simp only [Int.toNat_ofNat]
        rw [hXlen])]
    rw [hfdN]
    simp only [Int.toNat_ofNat]
    rw [show X.tobytes = PArr.tobytes ⟨Y.dtype, X.pats⟩ by rw [← hdt]]
    rw [show Y.pats.length = X.pats.length from hlen.symm]
    rw [show chunkEv X.pats.length
        (Dtype.width ⟨Y.dtype.ord, Y.dtype.kind, Y.dtype.width⟩)
        (PArr.tobytes ⟨Y.dtype, X.pats⟩) =
      X.pats.map (patBytes Y.dtype.ord Y.dtype.width) from
        chunkEv_tobytes Y.dtype X.pats]
    rw [show (X.pats.map (patBytes Y.dtype.ord Y.dtype.width)).map
        (fun c => dval ⟨Y.dtype.ord, Y.dtype.kind, Y.dtype.width⟩
          (bytesPat (Dtype.ord ⟨Y.dtype.ord, Y.dtype.kind, Y.dtype.width⟩)
            c)) =
      X.pats.map (dval Y.dtype) from decode_values Y.dtype X.pats hXb]
    simp only [sub_zero, mul_one, add_zero, List.map_id']
    rw [show PArr.values X = X.pats.map (dval Y.dtype) by
      unfold PArr.values
      rw [hdt]]
  have hconvy : convert_data_y Y.tobytes (c1FullHead (ordTok Y.dtype.ord) (kindTok Y.dtype.kind) Y.dtype.width Y.pats.length) =
      .ok ⟨resDtypeF Y.dtype, Y.values⟩ := by
    rw [convert_data_y_eval fpt (if_pos (Or.inr rfl)) fbo hbf fbn hkf fbnr
      fnp (by decide) (by rw [hfdN]; omega)
      (npDtype_c1 Y.dtype.ord Y.dtype.kind hwv) fyo fym fyz
      (by
        rw [hfdN]
        simp only [Int.toNat_ofNat]
        rw [hYlen])]
    rw [hfdN]
    simp only [Int.toNat_ofNat]
    rw [show Y.tobytes = PArr.tobytes ⟨Y.dtype, Y.pats⟩ from rfl]
    rw [show chunkEv Y.pats.length
        (Dtype.width ⟨Y.dtype.ord, Y.dtype.kind, Y.dtype.width⟩)
        (PArr.tobytes ⟨Y.dtype, Y.pats⟩) =
      Y.pats.map (patBytes Y.dtype.ord Y.dtype.width) from
        chunkEv_tobytes Y.dtype Y.pats]
    rw [show (Y.pats.map (patBytes Y.dtype.ord Y.dtype.width)).map
        (fun c => dval ⟨Y.dtype.ord, Y.dtype.kind, Y.dtype.width⟩
          (bytesPat (Dtype.ord ⟨Y.dtype.ord, Y.dtype.kind, Y.dtype.width⟩)
            c)) =
      Y.pats.map (dval Y.dtype) from decode_values Y.dtype Y.pats hYb]
    simp only [sub_zero, mul_one, add_zero, List.map_id']
    rw [show PArr.values Y = Y.pats.map (dval Y.dtype) from rfl]
  unfold read_isf
  rw [bindOk hhs]
  rw [decodeStage_xy fpt fenc (Or.inr rfl) fbo hbf fbn hkf fbnr]
  rw [hfd]
  rw [bindOk hread1]
  rw [bindOk hconvx]
  rw [bindOk hread2]
  rw [bindOk hconvy]

/-- C1 counterexample: the XY encoder accepts the equal-length,
equal-dtype int16 arrays `cx1X`/`cx1Y`, but decoding the file it writes
does NOT return `cx1Y`'s values: the X payload bytes spell `;YMULT 2`,
the decoder's header scan runs over the payload region of its 1024-byte
window, picks the spoofed field up, and the re-calibrated Y comes back
as `[118, 2, 2, 2]` instead of `[59, 1, 1, 1]`. -/
theorem c1_payload_spoofs_header :
    cx1X.pats.length = cx1Y.pats.length ∧ cx1X.dtype = cx1Y.dtype ∧
    write_isf_xy cx1X cx1Y = .ok cx1File ∧
    (read_isf cx1File).map (fun r => r.2.1.vals) = .ok [118, 2, 2, 2] ∧
    cx1Y.values = [59, 1, 1, 1] ∧
    ¬(([118, 2, 2, 2] : List ℚ) = [59, 1, 1, 1]) := by
  refine ⟨?_, ?_, ?_, ?_, ?_, ?_⟩
  · decide
  · decide
  · with_unfolding_all decide
  · with_unfolding_all decide
  · with_unfolding_all decide
  · with_unfolding_all decide

/-- C1 (amended): encode-then-decode of an XY pair is the identity on
the element values, provided the arrays have a supported width (2, 4 or
8 bytes), each bit pattern fits its element width, the serialized
payload contains no `:`/`;` delimiter byte (the counterexample above
shows the round trip genuinely fails otherwise), and the payload
declares at most 999999999 bytes.  The decoded arrays carry exactly the
original numeric values, not merely values within element precision. -/
theorem c1_xy_roundtrip (X Y : PArr)
    (hlen : X.pats.length = Y.pats.length)
    (hdt : X.dtype = Y.dtype)
    (hwv : Y.dtype.width = 2 ∨ Y.dtype.width = 4 ∨ Y.dtype.width = 8)
    (hXb : ∀ p ∈ X.pats, p < 256 ^ Y.dtype.width)
    (hYb : ∀ p ∈ Y.pats, p < 256 ^ Y.dtype.width)
    (hpay : ∀ c ∈ X.tobytes ++ Y.tobytes, isDelimB c = false)
    (hsz : Y.pats.length * 2 * Y.dtype.width ≤ 999999999) :
    write_isf_xy X Y = .ok (c1File X Y) ∧
    read_isf (c1File X Y) =
      .ok (⟨resDtypeF Y.dtype, X.values⟩, ⟨resDtypeF Y.dtype, Y.values⟩,
        c1FullHead (ordTok Y.dtype.ord) (kindTok Y.dtype.kind)
          Y.dtype.width Y.pats.length, []) :=
  ⟨c1_write_eval X Y hlen hdt hwv,
   c1_read_eval X Y hlen hdt hwv hXb hYb hpay hsz⟩

/-- Witness for the amended C1 at a concrete int16 pair: `X = [1, 2]`,
`Y = [3, 4464]`, whose payload bytes contain no delimiter. -/
theorem c1_xy_roundtrip_witness :
    write_isf_xy ⟨⟨.lt, .ki, 2⟩, [1, 2]⟩ ⟨⟨.lt, .ki, 2⟩, [3, 4464]⟩ =
      .ok (c1File ⟨⟨.lt, .ki, 2⟩, [1, 2]⟩ ⟨⟨.lt, .ki, 2⟩, [3, 4464]⟩) ∧
    read_isf (c1File ⟨⟨.lt, .ki, 2⟩, [1, 2]⟩ ⟨⟨.lt, .ki, 2⟩, [3, 4464]⟩) =
      .ok (⟨resDtypeF (⟨⟨.lt, .ki, 2⟩, [3, 4464]⟩ : PArr).dtype,
          PArr.values ⟨⟨.lt, .ki, 2⟩, [1, 2]⟩⟩,
        ⟨resDtypeF (⟨⟨.lt, .ki, 2⟩, [3, 4464]⟩ : PArr).dtype,
          PArr.values ⟨⟨.lt, .ki, 2⟩, [3, 4464]⟩⟩,
        c1FullHead (ordTok (⟨⟨.lt, .ki, 2⟩, [3, 4464]⟩ : PArr).dtype.ord)
          (kindTok (⟨⟨.lt, .ki, 2⟩, [3, 4464]⟩ : PArr).dtype.kind)
          (⟨⟨.lt, .ki, 2⟩, [3, 4464]⟩ : PArr).dtype.width
          (⟨⟨.lt, .ki, 2⟩, [3, 4464]⟩ : PArr).pats.length, []) :=
  c1_xy_roundtrip ⟨⟨.lt, .ki, 2⟩, [1, 2]⟩ ⟨⟨.lt, .ki, 2⟩, [3, 4464]⟩
    rfl rfl (Or.inl rfl) (by decide) (by decide) (by decide) (by decide)

/-! ## The claims -/

/-- C10: header parsing examines only the first 1024 bytes of the file:
appending anything beyond byte offset 1024 leaves the parsed header,
payload bounds and diagnostics unchanged (`read_isf` hands
`fid.read(1024)` to `get_head`). -/
theorem c10_header_reads_1024 (file extra : List Nat)
    (h : 1024 ≤ file.length) :
    headerStage (file ++ extra) = headerStage file := by
  unfold headerStage
  congr 1
  rw [List.take_append_eq_append_take, show 1024 - file.length = 0 by omega,
    List.take_zero, List.append_nil]

/-- Witness for C10 at a concrete 1024-byte file. -/
theorem c10_header_reads_1024_witness :
    1024 ≤ (List.replicate 1024 0).length ∧
      headerStage (List.replicate 1024 0 ++ [59]) =
        headerStage (List.replicate 1024 0) :=
  ⟨by simp, c10_header_reads_1024 _ _ (by simp)⟩

/-- C7 counterexample: with `byt_nr = 1` the resolved dtype prints the
width-1 irrelevant byte order marker, and unresolving raises `KeyError`
instead of reproducing `(LSB, RI)`; so the table is not a right inverse
for every `byt_nr`. -/
theorem c7_width_one_not_inverted :
    resolve_then_unresolve (.str (strB "LSB")) (.str (strB "RI")) 1 =
      .error (.keyError (.str [124])) := by
  decide

/-- C7 (amended): for byte-order tokens in `{MSB, LSB}`, kind tokens in
`{RI, RP, FP}` and any byte width of at least 2 that numpy accepts for
the kind (2, 4 or 8 for the integer kinds, also 16 for `FP`), resolving
to a descriptor and unresolving reproduces the tokens and the width. -/
theorem c7_resolve_unresolve_inverse (o f : String) (w : Nat)
    (ho : o = "MSB" ∨ o = "LSB") (hf : f = "RI" ∨ f = "RP" ∨ f = "FP")
    (hw : w = 2 ∨ w = 4 ∨ w = 8 ∨ (w = 16 ∧ f = "FP")) :
    resolve_then_unresolve (.str (strB o)) (.str (strB f)) (w : Int) =
      .ok (.str (strB o), .str (strB f), w) := by
  rcases hw with rfl | rfl | rfl | ⟨rfl, rfl⟩ <;>
    rcases ho with rfl | rfl <;>
    first
      | (rcases hf with rfl | rfl | rfl <;> decide)
      | decide

/-- Witness for C7 at `(LSB, RI, 2)`. -/
theorem c7_resolve_unresolve_inverse_witness :
    resolve_then_unresolve (.str (strB "LSB")) (.str (strB "RI")) (2 : Int) =
      .ok (.str (strB "LSB"), .str (strB "RI"), 2) :=
  c7_resolve_unresolve_inverse "LSB" "RI" 2 (Or.inr rfl) (Or.inl rfl)
    (Or.inl rfl)

/-- C8 counterexample: an input with no binary-block marker (and with
`BYT_NR`, `NR_PT` present) does not fail; `get_head` returns zeroed
payload bounds together with the size-mismatch diagnostic. -/
theorem c8_no_marker_returns_zero_bounds :
    get_head noCurveRaw =
      .ok ([(strB "NR_PT", .int 4), (strB "BYT_NR", .int 2)], 0, 0,
        [(.int 8, 0)]) := by
  decide

/-- C8 (amended): on any input whose scan yields no `CURVE` token,
header parsing does not fail with a malformed-header error on the
missing marker; whenever it returns (which it does exactly when
`BYT_NR` and `NR_PT` are present for the size check), the payload
bounds are both zero. -/
theorem c8_no_marker_zero_bounds (raw : List Nat)
    (hname : ∀ m ∈ scan raw 0 0, m.name ≠ strB "CURVE")
    (res : Header × Nat × Int × List (PyVal × Int))
    (hres : get_head raw = .ok res) :
    res.2.1 = 0 ∧ res.2.2.1 = 0 := by
  unfold get_head at hres
  rw [bindOk_iff] at hres
  obtain ⟨⟨hd, ds, sz⟩, hfold, hres⟩ := hres
  have hst : (ds, sz) = ((0 : Nat), (0 : Int)) :=
    foldlM_getHeadStep_no_curve _ _ _ hname hfold
  rw [bindOk_iff] at hres
  obtain ⟨bn, hbn, hres⟩ := hres
  rw [bindOk_iff] at hres
  obtain ⟨np', hnp, hres⟩ := hres
  rw [bindOk_iff] at hres
  obtain ⟨cs, hmul, hres⟩ := hres
  simp only [pure, Except.pure, Except.ok.injEq] at hres
  rw [← hres]
  simp only [Prod.mk.injEq] at hst
  exact ⟨hst.1, hst.2⟩

/-- Witness for C8 at the concrete marker-free input. -/
theorem c8_no_marker_zero_bounds_witness :
    (∀ m ∈ scan noCurveRaw 0 0, m.name ≠ strB "CURVE") ∧
      (noCurveRes.2.1 = 0 ∧ noCurveRes.2.2.1 = 0) :=
  ⟨by decide, c8_no_marker_zero_bounds noCurveRaw (by decide) noCurveRes
    (by decide)⟩

/-- C9: for a Y-format input whose parsed header carries every field the
decode needs except `YMULT` (and whose payload is present), `read_isf`
fails with the `KeyError` naming `YMULT` — the source's form of the
spec's `MissingField` — and returns no arrays. -/
theorem c9_missing_ymult_fails
    (file : List Nat) (h : Header) (ds : Nat) (sz : Int)
    (warns : List (PyVal × Int)) (encv o k : PyVal) (oc kc : List Nat)
    (w N : Int) (xz xi yo : ℚ) (d : Dtype)
    (hhs : headerStage file = .ok (h, ds, sz, warns))
    (hpt : hFind h (strB "PT_FMT") = .ok (.str (strB "Y")))
    (henc : hFind h (strB "ENCDG") = .ok encv)
    (hencv : encv = .str (strB "BIN") ∨ encv = .str (strB "BINARY"))
    (ho : hFind h (strB "BYT_OR") = .ok o)
    (hoc : fmt_isf_to_numpy o = .ok oc)
    (hk : hFind h (strB "BN_FMT") = .ok k)
    (hkc : fmt_isf_to_numpy k = .ok kc)
    (hw : hFind h (strB "BYT_NR") = .ok (.int w))
    (hN : hFind h (strB "NR_PT") = .ok (.int N)) (hN0 : 0 ≤ N)
    (hxz : hFind h (strB "XZERO") = .ok (.float xz))
    (hxi : hFind h (strB "XINCR") = .ok (.float xi))
    (hd : npDtypeOfString (oc ++ kc ++ intDec w) = .ok d)
    (hyo : hFind h (strB "YOFF") = .ok (.float yo))
    (hym : hFind h (strB "YMULT") = .error (.keyError (.str (strB "YMULT"))))
    (hsz0 : 0 ≤ sz) (hav : ds + sz.toNat ≤ file.length)
    (hbuf : N.toNat * d.width ≤ sz.toNat) :
    read_isf file = .error (.keyError (.str (strB "YMULT"))) := by
  unfold read_isf
  rw [bindOk hhs]
  rw [decodeStage_y hpt henc hencv ho hoc hk hkc hw hxz hxi hN hN0 hd]
  rw [bindOk (read_data_from_file_ok (by omega) hsz0 (by
    simp only [Int.toNat_ofNat]
    omega))]
  have hpt' : hFind (hInsert h (strB "XSTOP") (.float (xz + xi * N)))
      (strB "PT_FMT") = .ok (.str (strB "Y")) :=
    (hFind_insert_ne (by decide)).trans hpt
  have ho' : hFind (hInsert h (strB "XSTOP") (.float (xz + xi * N)))
      (strB "BYT_OR") = .ok o :=
    (hFind_insert_ne (by decide)).trans ho
  have hk' : hFind (hInsert h (strB "XSTOP") (.float (xz + xi * N)))
      (strB "BN_FMT") = .ok k :=
    (hFind_insert_ne (by decide)).trans hk
  have hw' : hFind (hInsert h (strB "XSTOP") (.float (xz + xi * N)))
      (strB "BYT_NR") = .ok (.int w) :=
    (hFind_insert_ne (by decide)).trans hw
  have hN' : hFind (hInsert h (strB "XSTOP") (.float (xz + xi * N)))
      (strB "NR_PT") = .ok (.int N) :=
    (hFind_insert_ne (by decide)).trans hN
  have hyo' : hFind (hInsert h (strB "XSTOP") (.float (xz + xi * N)))
      (strB "YOFF") = .ok (.float yo) :=
    (hFind_insert_ne (by decide)).trans hyo
  have hym' : hFind (hInsert h (strB "XSTOP") (.float (xz + xi * N)))
      (strB "YMULT") = .error (.keyError (.str (strB "YMULT"))) :=
    (hFind_insert_ne (by decide)).trans hym
  rw [bindErr (convert_data_y_err_ymult hpt' (if_neg (by decide)) ho' hoc hk' hkc hw'
    hN' (by decide) (by rw [Int.fdiv_one]; omega) hd hyo' hym'
    (by
      rw [Int.fdiv_one]
      simp only [List.length_take, List.length_drop, Int.toNat_ofNat]
      omega))]

/-- Counterexample to C6: a Y-format input whose declared payload length
(2) disagrees with `BYT_NR * NR_PT` (8).  The header stage does record
the integrity warning, but decoding then FAILS with numpy's `TypeError`
(the two declared bytes cannot fill `NR_PT` elements), instead of
"still succeeding with arrays sized per NR_PT" as the claim states: the
claim only holds when the declared length is at least the product. -/
theorem c6_short_declared_fails :
    headerStage c6ShortFile = .ok (c6ShortHead, 98, 2, [(.int 8, 2)]) ∧
    hFind c6ShortHead (strB "BYT_NR") = .ok (.int 2) ∧
    hFind c6ShortHead (strB "NR_PT") = .ok (.int 4) ∧
    (2 : Int) * 4 ≠ 2 ∧
    read_isf c6ShortFile = .error .typeError := by
  refine ⟨?_, ?_, ?_, ?_, ?_⟩ <;> with_unfolding_all decide

/-- C6 (amended): for a Y-format input whose declared payload length
disagrees with `BYT_NR * NR_PT` but is large enough to hold the
`NR_PT` elements, decoding succeeds, the returned diagnostics list is
exactly the integrity warning carrying the recomputed product and the
declared length, both returned arrays have `NR_PT` elements, and the
payload buffer is located by the declared length (`take sz.toNat`),
not by the product. -/
theorem c6_mismatch_warning_arrays
    (file : List Nat) (h : Header) (ds : Nat) (sz : Int)
    (warns : List (PyVal × Int)) (encv o k : PyVal) (oc kc : List Nat)
    (w N : Int) (xz xi yo ym yz : ℚ) (d : Dtype)
    (hhs : headerStage file = .ok (h, ds, sz, warns))
    (hpt : hFind h (strB "PT_FMT") = .ok (.str (strB "Y")))
    (henc : hFind h (strB "ENCDG") = .ok encv)
    (hencv : encv = .str (strB "BIN") ∨ encv = .str (strB "BINARY"))
    (ho : hFind h (strB "BYT_OR") = .ok o)
    (hoc : fmt_isf_to_numpy o = .ok oc)
    (hk : hFind h (strB "BN_FMT") = .ok k)
    (hkc : fmt_isf_to_numpy k = .ok kc)
    (hw : hFind h (strB "BYT_NR") = .ok (.int w))
    (hN : hFind h (strB "NR_PT") = .ok (.int N)) (hN0 : 0 ≤ N)
    (hxz : hFind h (strB "XZERO") = .ok (.float xz))
    (hxi : hFind h (strB "XINCR") = .ok (.float xi))
    (hd : npDtypeOfString (oc ++ kc ++ intDec w) = .ok d)
    (hyo : hFind h (strB "YOFF") = .ok (.float yo))
    (hym : hFind h (strB "YMULT") = .ok (.float ym))
    (hyz : hFind h (strB "YZERO") = .ok (.float yz))
    (hmm : ¬(w * N = sz))
    (hsz0 : 0 ≤ sz) (hav : ds + sz.toNat ≤ file.length)
    (hbuf : N.toNat * d.width ≤ sz.toNat) :
    read_isf file = .ok
      (⟨d, (linspaceQ xz (xz + xi * N - xi) N.toNat).map (castVal d)⟩,
       ⟨resDtypeF d,
         ((chunkEv N.toNat d.width ((file.drop ds).take sz.toNat)).map
           (fun c => dval d (bytesPat d.ord c))).map
           (fun v => (v - yo) * ym + yz)⟩,
       hInsert h (strB "XSTOP") (.float (xz + xi * N)),
       [(.int (w * N), sz)]) ∧
    ((linspaceQ xz (xz + xi * N - xi) N.toNat).map (castVal d)).length =
      N.toNat ∧
    (((chunkEv N.toNat d.width ((file.drop ds).take sz.toNat)).map
        (fun c => dval d (bytesPat d.ord c))).map
        (fun v => (v - yo) * ym + yz)).length = N.toNat := by
  have hhs' : get_head (file.take 1024) = .ok (h, ds, sz, warns) := hhs
  have hwarn := get_head_warns hhs' hw hN
  rw [if_neg hmm] at hwarn
  subst hwarn
  refine ⟨?_, ?_, ?_⟩
  · unfold read_isf
    rw [bindOk hhs]
    rw [decodeStage_y hpt henc hencv ho hoc hk hkc hw hxz hxi hN hN0 hd]
    rw [bindOk (read_data_from_file_ok (by omega) hsz0 (by
      simp only [Int.toNat_ofNat]
      omega))]
    have hpt' : hFind (hInsert h (strB "XSTOP") (.float (xz + xi * N)))
        (strB "PT_FMT") = .ok (.str (strB "Y")) :=
      (hFind_insert_ne (by decide)).trans hpt
    have ho' : hFind (hInsert h (strB "XSTOP") (.float (xz + xi * N)))
        (strB "BYT_OR") = .ok o :=
      (hFind_insert_ne (by decide)).trans ho
    have hk' : hFind (hInsert h (strB "XSTOP") (.float (xz + xi * N)))
        (strB "BN_FMT") = .ok k :=
      (hFind_insert_ne (by decide)).trans hk
    have hw' : hFind (hInsert h (strB "XSTOP") (.float (xz + xi * N)))
        (strB "BYT_NR") = .ok (.int w) :=
      (hFind_insert_ne (by decide)).trans hw
    have hN' : hFind (hInsert h (strB "XSTOP") (.float (xz + xi * N)))
        (strB "NR_PT") = .ok (.int N) :=
      (hFind_insert_ne (by decide)).trans hN
    have hyo' : hFind (hInsert h (strB "XSTOP") (.float (xz + xi * N)))
        (strB "YOFF") = .ok (.float yo) :=
      (hFind_insert_ne (by decide)).trans hyo
    have hym' : hFind (hInsert h (strB "XSTOP") (.float (xz + xi * N)))
        (strB "YMULT") = .ok (.float ym) :=
      (hFind_insert_ne (by decide)).trans hym
    have hyz' : hFind (hInsert h (strB "XSTOP") (.float (xz + xi * N)))
        (strB "YZERO") = .ok (.float yz) :=
      (hFind_insert_ne (by decide)).trans hyz
    rw [bindOk (convert_data_y_eval hpt' (if_neg (by decide)) ho' hoc hk' hkc
      hw' hN' (by decide) (by rw [Int.fdiv_one]; omega) hd hyo' hym' hyz'
      (by
        rw [Int.fdiv_one]
        simp only [List.length_take, List.length_drop, Int.toNat_ofNat]
        omega))]
    simp only [Int.fdiv_one, Int.toNat_ofNat]
  · rw [List.length_map, linspaceQ_length]
  · rw [List.length_map, List.length_map, chunkEv_length]

/-- Witness for the amended C6 at a concrete Y-format file with a
six-byte declared payload against a four-byte product: the decode
succeeds, carries exactly the integrity warning `(4, 6)`, and the X
array still has `NR_PT = 2` elements. -/
theorem c6_mismatch_warning_arrays_witness :
    ∃ r, read_isf c6LongFile = .ok r ∧
      r.2.2.2 = [(.int 4, 6)] ∧ r.1.vals.length = 2 := by
  obtain ⟨heq, hlen, _⟩ := c6_mismatch_warning_arrays c6LongFile c6LongHead
    127 6 [(.int 4, 6)] (.str (strB "BIN")) (.str (strB "LSB"))
    (.str (strB "RI")) (strB "<") (strB "i") 2 2 0 1 0 1 0 ⟨.lt, .ki, 2⟩
    (by with_unfolding_all decide) (by decide) (by decide) (Or.inl rfl)
    (by decide) (by decide) (by decide) (by decide) (by decide) (by decide)
    (by decide) (by with_unfolding_all decide) (by with_unfolding_all decide)
    (by decide) (by with_unfolding_all decide) (by with_unfolding_all decide)
    (by with_unfolding_all decide) (by decide) (by decide) (by decide)
    (by decide)
  exact ⟨_, heq, rfl, hlen⟩

/-- Witness for C9 at a concrete Y-format file missing only `YMULT`. -/
theorem c9_missing_ymult_fails_witness :
    read_isf yMissingFile = .error (.keyError (.str (strB "YMULT"))) :=
  c9_missing_ymult_fails yMissingFile yMissingHead 117 4 []
    (.str (strB "BIN")) (.str (strB "LSB")) (.str (strB "RI"))
    (strB "<") (strB "i") 2 2 0 1 0 ⟨.lt, .ki, 2⟩
    (by with_unfolding_all decide) (by decide) (by decide) (Or.inl rfl)
    (by decide) (by decide) (by decide) (by decide) (by decide) (by decide)
    (by decide) (by with_unfolding_all decide) (by with_unfolding_all decide)
    (by decide) (by with_unfolding_all decide) (by with_unfolding_all decide)
    (by decide) (by with_unfolding_all decide) (by decide)

/-- C2 (code bug): on the spec's own Y-format scenario (signed 16-bit
payload, integer calibration constants) `read_isf` returns the X and Y
arrays in the payload's raw `<i2` dtype, not as double-precision
floats: `np.linspace` is given the raw dtype for X, and the calibration
arithmetic keeps the integer dtype. -/
theorem c2_arrays_not_double :
    (read_isf scenarioYFile).map (fun r => (r.1.dtype, r.2.1.dtype)) =
      .ok (⟨.lt, .ki, 2⟩, ⟨.lt, .ki, 2⟩) ∧
    (⟨.lt, .ki, 2⟩ : Dtype) ≠ ⟨.lt, .kf, 8⟩ := by
  constructor
  · with_unfolding_all decide
  · decide

/-- C3 (code bug): the spec scenario itself decodes to `X=[0,1,2,3]`,
`Y=[2,4,6,8]` as claimed, but the universal formula `X[i] = XZERO +
XINCR*i` is broken by the cast of the X axis to the raw dtype: with
`XINCR = 0.5` over an `<i2` payload the code returns `X = [0, 0]`
although the documented conversion gives `X[1] = 0.5`. -/
theorem c3_x_axis_truncated :
    (read_isf scenarioYFile).map (fun r => (r.1.vals, r.2.1.vals)) =
      .ok ([0, 1, 2, 3], [2, 4, 6, 8]) ∧
    (read_isf fracXIncrFile).map (fun r => r.1.vals) = .ok [0, 0] ∧
    (0 : ℚ) ≠ 0 + (1 / 2) * 1 := by
  refine ⟨?_, ?_, ?_⟩
  · with_unfolding_all decide
  · with_unfolding_all decide
  · with_unfolding_all decide

/-- C4 (code bug): decoding a valid ENV file with `NR_PT = 4` returns a
Y array of length `NR_PT // 2 = 2`, not `NR_PT = 4`: `convert_data_y`
halves the element count for the `ENV` layout, contradicting
`read_isf`'s own docstring (`x_array.size * 2 == y_array.size`) and its
caller, which indexes `y_data` up to `NR_PT - 1`. -/
theorem c4_env_y_halved :
    (read_isf envFile).map (fun r => (r.1.vals.length, r.2.1.vals.length)) =
      .ok (2, 2) ∧ (2 : Nat) ≠ 4 := by
  constructor
  · with_unfolding_all decide
  · decide

end Isf
